import Mathlib

/-!
# Superdesk authoring: lock manager, dirty diff and close/publish workflow

A shallow embedding of `client/app/scripts/superdesk-authoring/authoring.js`.

* JavaScript values are the inductive `JsVal`; numbers are integers (no claim below
  depends on fractional numbers) and objects are association lists read by first match.
* An `Item` is the property view of a JavaScript object: `getProp?` answers `key in item`
  together with the value `item[key]` (own or inherited), `setProp` is an assignment and
  `deleteProp` is `delete` on a plain object.
* The library calls used by the source (`_.keys`, `_.pick`, `_.each`, `_.extend`,
  `angular.extend`, `angular.forEach`, `_.isEqual`, `$q`) follow their documented behaviour.
* Asynchronous service code is written in explicit state passing: the answers of the
  outside world (modal prompt, record store) are parameters, and each operation returns the
  calls it issued (`trace`) and how its promise settles; an item that the source mutates in
  place is the value its promise resolves with.
* The autosave service is a state machine (`AutosaveState`): the `timeouts` object, the
  tasks pending in `$timeout`, a clock in milliseconds and the upserts issued so far. A
  timer callback reads its item object when it runs, so the state of the item objects is
  supplied with the clock advance that fires it.
* The controller is the record `Scope` with the handlers of `AuthoringDirective`.
-/

namespace Superdesk

/-! ## JavaScript values -/

/-- JavaScript values as far as the authoring code inspects them. -/
inductive JsVal where
  | undefined : JsVal
  | null : JsVal
  | bool (b : Bool) : JsVal
  | num (n : Int) : JsVal
  | str (s : String) : JsVal
  | arr (xs : List JsVal) : JsVal
  | obj (props : List (String × JsVal)) : JsVal

/-- The property view of a JavaScript object. -/
abbrev Item := List (String × JsVal)

/-- Lookup of `key in o` with the value `o[key]`: the first entry for the key. -/
def getProp? : Item → String → Option JsVal
  | [], _ => none
  | (k', v) :: rest, k => if k' = k then some v else getProp? rest k

/-- The expression `o[key]` (or `o.key`): `undefined` when the key is missing. -/
def readProp (o : Item) (k : String) : JsVal :=
  (getProp? o k).getD JsVal.undefined

/-- The expression `delete o[key]`. -/
def deleteProp (o : Item) (k : String) : Item :=
  o.filter (fun p => p.1 != k)

/-- The assignment `o[key] = v`. -/
def setProp (o : Item) (k : String) (v : JsVal) : Item :=
  (k, v) :: deleteProp o k

/-- The list `_.keys(o)`. -/
def keysOf (o : Item) : List String :=
  o.map Prod.fst

namespace JsVal

/-- JavaScript truthiness (`!!v`): arrays and objects are truthy, also when empty. -/
def truthy : JsVal → Bool
  | undefined => false
  | null => false
  | bool b => b
  | num n => n != 0
  | str s => s != ""
  | arr _ => true
  | obj _ => true

/-- The expression `a && b`. -/
def and (a b : JsVal) : JsVal := if a.truthy then b else a

/-- The expression `a || b`. -/
def or (a b : JsVal) : JsVal := if a.truthy then a else b

/-- The member access `v.key` for a key that is no built-in member (such as `_id`):
the property of an object, `undefined` on every other value. It is only evaluated
behind a truthiness guard in the source, so `null` and `undefined` never reach it. -/
def member (v : JsVal) (k : String) : JsVal :=
  match v with
  | obj props => readProp props k
  | _ => undefined

/-- The comparison `v === s` against a string `s`. -/
def strictEqStr (v : JsVal) (s : String) : Bool :=
  match v with
  | str t => t == s
  | _ => false

mutual
/-- Deep comparison `_.isEqual(a, b)`: primitives by value, arrays element by element,
objects by their key sets and the values under each key (key order is irrelevant). -/
def isEqual : JsVal → JsVal → Bool
  | undefined, undefined => true
  | null, null => true
  | bool a, bool b => a == b
  | num a, num b => a == b
  | str a, str b => a == b
  | arr xs, arr ys => isEqualList xs ys
  | obj ps, obj qs =>
    isEqualProps [] ps qs && qs.all (fun q => ps.any (fun p => p.1 == q.1))
  | _, _ => false
/-- Element-wise deep comparison of two arrays. -/
def isEqualList : List JsVal → List JsVal → Bool
  | [], [] => true
  | x :: xs, y :: ys => isEqual x y && isEqualList xs ys
  | _, _ => false
/-- Every property of the first object (entries shadowed by an earlier one skipped)
is a property of the second with a deeply equal value. -/
def isEqualProps (seen : List String) : List (String × JsVal) → Item → Bool
  | [], _ => true
  | (k, v) :: rest, qs =>
    if k ∈ seen then isEqualProps seen rest qs
    else match getProp? qs k with
      | some w => isEqual v w && isEqualProps (k :: seen) rest qs
      | none => false
end

end JsVal

open JsVal

/-! ## Session and lock state (LockService) -/

/-- The identity provider: `session.identity._id` and `session.sessionId`. -/
structure Session where
  identityId : String
  sessionId : String

/-- Source: `getLockedUserId(item)`, `item.lock_user && item.lock_user._id || item.lock_user`. -/
def LockService.getLockedUserId (item : Item) : JsVal :=
  JsVal.or (JsVal.and (readProp item "lock_user") ((readProp item "lock_user").member "_id"))
    (readProp item "lock_user")

/-- Source: `LockService.isLocked(item)`. -/
def LockService.isLocked (session : Session) (item : Item) : Bool :=
  let userId := LockService.getLockedUserId item
  if !userId.truthy then false
  else if !userId.strictEqStr session.identityId then true
  else if (readProp item "lock_session").truthy
      && !(readProp item "lock_session").strictEqStr session.sessionId then true
  else false

/-! ## Dirty-diff engine -/

/-- Source: the table `CONTENT_FIELDS_DEFAULTS`, in source order. -/
def CONTENT_FIELDS_DEFAULTS : Item :=
  [("headline", str ""), ("slugline", str ""), ("body_html", null), ("abstract", null),
   ("anpa_take_key", null), ("byline", null), ("urgency", null), ("priority", null),
   ("subject", arr []), ("anpa-category", obj []), ("genre", arr []), ("groups", arr []),
   ("usageterms", null), ("ednote", null), ("place", arr []), ("located", null),
   ("dateline", str ""), ("language", null), ("unique_name", str ""), ("keywords", arr [])]

/-- The call `_.pick(src, keys)`: a fresh object holding `src[key]` for every listed key
with `key in src`. -/
def pick (src : Item) (keys : List String) : Item :=
  keys.foldl (fun result key =>
    match getProp? src key with
    | some v => setProp result key v
    | none => result) []

/-- The calls `angular.extend(dst, src)` and `_.extend(dst, src)`: `dst[key] = src[key]`
for every key of `src`; returns `dst`. -/
def extend (dst src : Item) : Item :=
  (keysOf src).foldl (fun d key => setProp d key (readProp src key)) dst

/-- Source: `extendItem(dest, src)`. -/
def extendItem (dest src : Item) : Item :=
  extend dest (pick src (keysOf CONTENT_FIELDS_DEFAULTS))

/-- The body of the callback that `forcedExtend` hands to `_.each`, for one
`(key, value)` entry of the defaults table. -/
def forcedExtendStep (src : Item) (dest : Item) (entry : String × JsVal) : Item :=
  if (readProp dest entry.1).truthy then
    if (readProp src entry.1).truthy then setProp dest entry.1 (readProp src entry.1)
    else setProp dest entry.1 entry.2
  else
    if (readProp src entry.1).truthy then setProp dest entry.1 (readProp src entry.1)
    else dest

/-- Source: `forcedExtend(dest, src)`; the result is the state of `dest` afterwards. -/
def forcedExtend (dest src : Item) : Item :=
  CONTENT_FIELDS_DEFAULTS.foldl (forcedExtendStep src) dest

/-- The body of the pruning loop of `AuthoringService.save` for one key:
`if (_.isEqual(diff[key], origItem[key])) delete diff[key]`. -/
def pruneStep (origItem : Item) (diff : Item) (key : String) : Item :=
  if (readProp diff key).isEqual (readProp origItem key) then deleteProp diff key else diff

/-- The `diff` object that `AuthoringService.save(origItem, item)` builds before it calls
the record store; `origItem = none` is an undefined baseline. -/
def saveDiff (origItem : Option Item) (item : Item) : Item :=
  let diff := extendItem [] item
  match origItem with
  | some orig => (keysOf diff).foldl (pruneStep orig) diff
  | none => diff

/-! ## Promises and calls to collaborators -/

/-- How a promise settles, if it does. -/
inductive Promise (α : Type) where
  | resolved (value : α) : Promise α
  | rejected (reason : JsVal) : Promise α
  | pending : Promise α

/-- The derived promise `p.then(f)` for a callback that returns a plain value. -/
def Promise.mapValue {α β : Type} (f : α → β) : Promise α → Promise β
  | Promise.resolved v => Promise.resolved (f v)
  | Promise.rejected r => Promise.rejected r
  | Promise.pending => Promise.pending

/-- Calls that the services issue to their collaborators, as they appear in the source. -/
inductive Call where
  /-- The prompt `confirm.confirm()`. -/
  | confirm : Call
  /-- The prompt `confirm.confirmPublish()`. -/
  | confirmPublish : Call
  /-- The call `autosave.stop(item)`. -/
  | autosaveStop (item : Item) : Call
  /-- The call `api.save(resource, item, diff, parent)`. -/
  | apiSave (resource : String) (item diff : Item) (parent : Option Item) : Call
  /-- The call `api(resource, parent).save(data)`. -/
  | apiResourceSave (resource : String) (parent data : Item) : Call
  /-- The call `api.find(resource, id)`. -/
  | apiFind (resource : String) (id : JsVal) : Call
  /-- The call `api.update(resource, item, diff)`. -/
  | apiUpdate (resource : String) (item diff : Item) : Call
  /-- The call `api(resource).remove(record)`. -/
  | apiRemove (resource : String) (record : JsVal) : Call
  /-- The call `notify.success(message)`. -/
  | notifySuccess (message : String) : Call
  /-- The call `notify.error(message)`. -/
  | notifyError (message : String) : Call
  /-- The call `confirm.unlock(userId)`. -/
  | confirmUnlock (userId : JsVal) : Call

/-- An operation that has run: the calls it issued, in order, and the promise it returned. -/
structure Run (α : Type) where
  trace : List Call
  promise : Promise α

/-- The rejection reason of a promise whose callback threw a `TypeError`. -/
def typeError : JsVal := str "TypeError"

/-- The request that `LockService.lock` sends: `api.save('archive_lock', {}, {}, item)`. -/
def lockRequest (item : Item) : Call := Call.apiSave "archive_lock" [] [] (some item)

/-- The request that `LockService.unlock` sends: `api('archive_unlock', item).save({})`. -/
def unlockRequest (item : Item) : Call := Call.apiResourceSave "archive_unlock" item []

/-- Whether a call is a partial update of the canonical record, `api.save('archive', ...)`. -/
def Call.isArchiveSave : Call → Bool
  | Call.apiSave resource _ _ _ => resource == "archive"
  | _ => false

/-- Whether a call is a lock release request. -/
def Call.isUnlockRequest : Call → Bool
  | Call.apiResourceSave resource _ _ => resource == "archive_unlock"
  | _ => false

/-- Whether a call shows a confirmation prompt. -/
def Call.isPrompt : Call → Bool
  | Call.confirm => true
  | Call.confirmPublish => true
  | _ => false

/-! ## LockService -/

/-- Source: `LockService.lock(item, force)`. `store` is how the record store settles the
acquisition request, if one is sent. -/
def LockService.lock (session : Session) (item : Item) (force : JsVal)
    (store : Promise Item) : Run Item :=
  if (!(readProp item "lock_user").truthy && (readProp item "_editable").truthy)
      || force.truthy then
    match store with
    | Promise.resolved lock =>
      let item1 := extend item lock
      let item2 := setProp item1 "_locked" (bool false)
      let item3 := setProp item2 "lock_user" (str session.identityId)
      let item4 := setProp item3 "lock_session" (str session.sessionId)
      ⟨[lockRequest item], Promise.resolved item4⟩
    | Promise.rejected _ =>
      ⟨[lockRequest item], Promise.resolved (setProp item "_locked" (bool true))⟩
    | Promise.pending => ⟨[lockRequest item], Promise.pending⟩
  else
    ⟨[], Promise.resolved (setProp item "_locked" (bool (LockService.isLocked session item)))⟩

/-- Source: `LockService.unlock(item)`. `store` is how the record store settles the
release request. -/
def LockService.unlock (item : Item) (store : Promise Item) : Run Item :=
  match store with
  | Promise.resolved lock =>
    ⟨[unlockRequest item], Promise.resolved (setProp (extend item lock) "_locked" (bool true))⟩
  | Promise.rejected _ =>
    ⟨[unlockRequest item], Promise.resolved (setProp item "_locked" (bool true))⟩
  | Promise.pending => ⟨[unlockRequest item], Promise.pending⟩

/-! ## AuthoringService -/

/-- Source: `AuthoringService.isEditable(item)`. -/
def AuthoringService.isEditable (session : Session) (item : Item) : Bool :=
  (readProp item "lock_user").truthy && !LockService.isLocked session item

/-- Source: `AuthoringService.save(origItem, item)`; either argument may be `undefined`
(`none`). With `item` undefined the diff is `_.pick(undefined, ...)`, the empty object,
and `autosave.stop(item)` throws a `TypeError` on `item._id` before any store call.
`store` is how the record store settles `api.save('archive', item, diff)`. -/
def AuthoringService.save (session : Session) (origItem item : Option Item)
    (store : Promise Item) : Run Item :=
  match item with
  | none => ⟨[], Promise.rejected typeError⟩
  | some it =>
    let diff := saveDiff origItem it
    let calls := [Call.autosaveStop it, Call.apiSave "archive" it diff none]
    match store with
    | Promise.resolved _ =>
      let it1 := setProp it "_autosave" null
      ⟨calls, Promise.resolved (setProp it1 "_locked" (bool (LockService.isLocked session it1)))⟩
    | Promise.rejected r => ⟨calls, Promise.rejected r⟩
    | Promise.pending => ⟨calls, Promise.pending⟩

/-- Source: `AuthoringService.close(diff, orig, isDirty)`. `answer` is how the promise of
`confirm.confirm()` settles; `saveStore` and `unlockStore` are how the record store
settles the save and the release request. A resolved item is the value `obj item`. -/
def AuthoringService.close (session : Session) (diff : Item) (orig : Option Item)
    (isDirty : Bool) (answer : Promise JsVal) (saveStore unlockStore : Promise Item) :
    Run JsVal :=
  if AuthoringService.isEditable session diff then
    if isDirty then
      match answer with
      | Promise.resolved _ =>
        let s := AuthoringService.save session orig (some diff) saveStore
        match s.promise with
        | Promise.resolved saved =>
          let u := LockService.unlock saved unlockStore
          ⟨Call.confirm :: (s.trace ++ u.trace), u.promise.mapValue obj⟩
        | Promise.rejected r => ⟨Call.confirm :: s.trace, Promise.rejected r⟩
        | Promise.pending => ⟨Call.confirm :: s.trace, Promise.pending⟩
      | Promise.rejected _ =>
        let u := LockService.unlock diff unlockStore
        ⟨Call.confirm :: u.trace, u.promise.mapValue obj⟩
      | Promise.pending => ⟨[Call.confirm], Promise.pending⟩
    else
      let u := LockService.unlock diff unlockStore
      ⟨u.trace, u.promise.mapValue obj⟩
  else
    ⟨[], Promise.resolved undefined⟩

/-- Source: `AuthoringService.publishConfirmation(diff, isDirty)`, whose confirm branch
calls `this.save(diff)`: `origItem` is `diff` and `item` is `undefined`. `answer` is how
the promise of `confirm.confirmPublish()` settles. -/
def AuthoringService.publishConfirmation (session : Session) (diff : Item) (isDirty : Bool)
    (answer : Promise JsVal) (saveStore : Promise Item) : Run JsVal :=
  if AuthoringService.isEditable session diff && isDirty then
    match answer with
    | Promise.resolved _ =>
      let s := AuthoringService.save session (some diff) none saveStore
      ⟨Call.confirmPublish :: s.trace, s.promise.mapValue obj⟩
    | Promise.rejected _ => ⟨[Call.confirmPublish], Promise.resolved (bool false)⟩
    | Promise.pending => ⟨[Call.confirmPublish], Promise.pending⟩
  else
    ⟨[], Promise.resolved undefined⟩

/-! ## More JavaScript operators -/

namespace JsVal

/-- The comparison `a === b`. Primitives compare by value. Two arrays or objects are
one value only when they are the same reference; the operands compared in the source are
an item field and a freshly received payload field, never one reference, so the answer
for them is `false`. -/
def strictEq : JsVal → JsVal → Bool
  | undefined, undefined => true
  | null, null => true
  | bool a, bool b => a == b
  | num a, num b => a == b
  | str a, str b => a == b
  | _, _ => false

/-- The test `angular.isDefined(v)`. -/
def isDefined : JsVal → Bool
  | undefined => false
  | _ => true

/-- The member access `v.key` where the source does not guard `v`: a `TypeError`
(`none`) on `undefined` and `null`, the property of an object, and `undefined` on the
other values (for a key that is no built-in member). -/
def member? (v : JsVal) (k : String) : Option JsVal :=
  match v with
  | undefined => none
  | null => none
  | obj props => some (readProp props k)
  | _ => some undefined

/-- The property view of a value: the properties of an object, none for the others. -/
def asItem : JsVal → Item
  | obj props => props
  | _ => []

mutual
/-- The string conversion of a value, as used for a property key (`timeouts[item._id]`)
and for `'text' + v`. -/
def toStr : JsVal → String
  | undefined => "undefined"
  | null => "null"
  | bool b => if b then "true" else "false"
  | num n => toString n
  | str s => s
  | arr xs => (joinTail xs).drop 1
  | obj _ => "[object Object]"
/-- The elements of an array, each preceded by a comma; `null` and `undefined` elements
convert to the empty string. -/
def joinTail : List JsVal → String
  | [] => ""
  | undefined :: rest => "," ++ joinTail rest
  | null :: rest => "," ++ joinTail rest
  | x :: rest => "," ++ toStr x ++ joinTail rest
end

end JsVal

/-! ## LockService, continued -/

/-- Source: `LockService.isLockedByMe(item)`, `userId && userId === session.identity._id`. -/
def LockService.isLockedByMe (session : Session) (item : Item) : JsVal :=
  JsVal.and (LockService.getLockedUserId item)
    (bool ((LockService.getLockedUserId item).strictEqStr session.identityId))

/-- Source: `LockService.can_unlock(item)`; `unlockPrivilege` is
`privileges.privileges.unlock`. -/
def LockService.can_unlock (session : Session) (unlockPrivilege : JsVal) (item : Item) :
    JsVal :=
  if (LockService.isLockedByMe session item).truthy then bool true else unlockPrivilege

/-! ## ConfirmDirtyService -/

/-- The three buttons of the prompt that `ConfirmDirtyService.confirm` opens:
`'Save'`, `'Ignore'` and `'Cancel'`. -/
inductive Answer where
  | save : Answer
  | ignore : Answer
  | cancel : Answer

/-- Modelled from the spec: the promise returned by `modal.confirm(...)`, which the modal
service (not among the sources) builds from the user's answer. The prompt settles as
confirmed, declined or cancelled: a confirmed prompt resolves, a declined prompt rejects
(the source handles the rejection as "ignore saving"), and a cancelled prompt is dismissed
without settling its promise, which is how a cancel aborts the close. -/
def modalConfirm : Answer → Promise JsVal
  | Answer.save => Promise.resolved (bool true)
  | Answer.ignore => Promise.rejected undefined
  | Answer.cancel => Promise.pending

/-! ## AutosaveService -/

/-- Source: `RESOURCE` of the autosave service. -/
def RESOURCE : String := "archive_autosave"

/-- Source: `AUTOSAVE_TIMEOUT`, in milliseconds. -/
def AUTOSAVE_TIMEOUT : Nat := 3000

/-- Source: `AutosaveService.open(item)` (`openAutosave`). `store` is how the record
store settles `api.find(RESOURCE, item._id)`. -/
def AutosaveService.openAutosave (item : Item) (store : Promise JsVal) : Run Item :=
  if (readProp item "_locked").truthy || (readProp item "read_only").truthy then
    ⟨[], Promise.resolved item⟩
  else
    match store with
    | Promise.resolved autosave =>
      ⟨[Call.apiFind RESOURCE (readProp item "_id")],
        Promise.resolved (setProp item "_autosave" autosave)⟩
    | Promise.rejected _ =>
      ⟨[Call.apiFind RESOURCE (readProp item "_id")], Promise.resolved item⟩
    | Promise.pending => ⟨[Call.apiFind RESOURCE (readProp item "_id")], Promise.pending⟩

/-- A task registered with `$timeout` by `AutosaveService.save`: its handle, the time at
which it fires, the key `item._id` under which the service filed it, and the reference of
the item object that its callback reads. -/
structure Timer where
  handle : Nat
  due : Nat
  key : String
  item : Nat

/-- An upsert of the Autosave Record issued by a timer callback: the time of the call,
the key of the timer and the call `api.save(RESOURCE, {}, diff)`. -/
structure Upsert where
  time : Nat
  key : String
  call : Call

/-- The autosave service with its clock: the current time in milliseconds, the next
unused timer handle, the `timeouts` object (`none` for a missing or `null` entry), the
tasks pending in `$timeout`, in the order of their registration, and the upserts issued. -/
structure AutosaveState where
  now : Nat
  nextHandle : Nat
  timeouts : String → Option Nat
  queue : List Timer
  log : List Upsert

/-- The service at start-up: `timeouts = {}`, nothing pending. -/
def AutosaveState.start : AutosaveState := ⟨0, 0, fun _ => none, [], []⟩

/-- The property key of `timeouts[item._id]`. -/
def timerKey (item : Item) : String := (readProp item "_id").toStr

/-- Source: `AutosaveService.stop(item)` (`stopAutosave`). `$timeout.cancel` removes the
task when it is still pending and does nothing otherwise. -/
def AutosaveService.stopAutosave (s : AutosaveState) (item : Item) : AutosaveState :=
  match s.timeouts (timerKey item) with
  | some h =>
    ⟨s.now, s.nextHandle, fun k => if k = timerKey item then none else s.timeouts k,
      s.queue.filter (fun t => t.handle != h), s.log⟩
  | none => s

/-- Source: `AutosaveService.save(item)` (`saveAutosave`), up to the registration of the
timer; `ref` is the reference of the `item` object that the callback keeps. -/
def AutosaveService.saveAutosave (s : AutosaveState) (ref : Nat) (item : Item) :
    AutosaveState :=
  let s1 := AutosaveService.stopAutosave s item
  ⟨s1.now, s1.nextHandle + 1,
    fun k => if k = timerKey item then some s1.nextHandle else s1.timeouts k,
    s1.queue ++ [⟨s1.nextHandle, s1.now + AUTOSAVE_TIMEOUT, timerKey item, ref⟩], s1.log⟩

/-- Source: `AutosaveService.drop(item)` (`dropAutosave`): the service afterwards, the
item afterwards and the store call issued. -/
def AutosaveService.dropAutosave (s : AutosaveState) (item : Item) :
    AutosaveState × Item × List Call :=
  (AutosaveService.stopAutosave s item, setProp item "_autosave" null,
    [Call.apiRemove RESOURCE (readProp item "_autosave")])

/-- The `diff` that the timer callback builds when it runs:
`extendItem({_id: item._id}, item)`. -/
def autosaveDiff (item : Item) : Item :=
  extendItem [("_id", readProp item "_id")] item

/-- The timer callback of `AutosaveService.save` running at its due time, up to the call
`api.save(RESOURCE, {}, diff)`; `current` gives the state of every item object then. -/
def fireTimer (current : Nat → Item) (t : Timer) : Upsert :=
  ⟨t.due, t.key, Call.apiSave RESOURCE [] (autosaveDiff (current t.item)) none⟩

/-- The clock advances by `dt` milliseconds: every pending task that is due by then runs,
in the order of registration (all delays are equal, so this is the order of the due
times), and leaves `$timeout`. -/
def advanceClock (s : AutosaveState) (dt : Nat) (current : Nat → Item) : AutosaveState :=
  ⟨s.now + dt, s.nextHandle, s.timeouts,
    s.queue.filter (fun t => decide (s.now + dt < t.due)),
    s.log ++ (s.queue.filter (fun t => decide (t.due ≤ s.now + dt))).map (fireTimer current)⟩

/-- What can happen to the autosave service. -/
inductive Event where
  | save (ref : Nat) (item : Item) : Event
  | stop (item : Item) : Event
  | drop (item : Item) : Event
  | advance (dt : Nat) (current : Nat → Item) : Event

/-- One event applied to the service. -/
def stepEvent (s : AutosaveState) : Event → AutosaveState
  | Event.save ref item => AutosaveService.saveAutosave s ref item
  | Event.stop item => AutosaveService.stopAutosave s item
  | Event.drop item => (AutosaveService.dropAutosave s item).1
  | Event.advance dt current => advanceClock s dt current

/-- A sequence of events applied to the service. -/
def runEvents (s : AutosaveState) (events : List Event) : AutosaveState :=
  events.foldl stepEvent s

/-- Whether an event leaves the timer filed under `key` alone: the clock advancing, or a
`save`, `stop` or `drop` of an item filed under another key. -/
def Event.foreignTo (key : String) : Event → Bool
  | Event.save _ item => timerKey item != key
  | Event.stop item => timerKey item != key
  | Event.drop item => timerKey item != key
  | Event.advance _ _ => true

/-- The time that passes during an event. -/
def Event.elapsed : Event → Nat
  | Event.advance dt _ => dt
  | _ => 0

/-- The time that passes during a sequence of events. -/
def elapsedOf (events : List Event) : Nat :=
  (events.map Event.elapsed).sum

/-- Further calls of `save` on one item object: each is preceded by the events that
happen since the previous call, and is made with the item as it is then. -/
def burstEvents (ref : Nat) : List (List Event × Item) → List Event
  | [] => []
  | (events, item) :: rest => events ++ Event.save ref item :: burstEvents ref rest

/-- The time that passes during a burst of calls. -/
def burstElapsed : List (List Event × Item) → Nat
  | [] => 0
  | (events, _) :: rest => elapsedOf events + burstElapsed rest

/-- The tasks pending under one key. -/
def pendingFor (key : String) (s : AutosaveState) : List Timer :=
  s.queue.filter (fun t => t.key == key)

/-- The upserts issued by the timers of one key. -/
def upsertsFor (key : String) (s : AutosaveState) : List Upsert :=
  s.log.filter (fun u => u.key == key)

/-- Consistency of the service: every pending task is the one filed in `timeouts` under
its key, handles in `timeouts` are used handles, no handle is filed under two keys, and
at most one task is pending per key. -/
def AutosaveState.Consistent (s : AutosaveState) : Prop :=
  (∀ t ∈ s.queue, s.timeouts t.key = some t.handle)
    ∧ (∀ k h, s.timeouts k = some h → h < s.nextHandle)
    ∧ (∀ k1 k2 h, s.timeouts k1 = some h → s.timeouts k2 = some h → k1 = k2)
    ∧ (∀ k, (pendingFor k s).length ≤ 1)

/-! ## AuthoringService, continued -/

/-- Source: `AuthoringService.publish(item)`. `publishStore` is how the record store
settles `api.update('archive_publish', item, {})` and `unlockStore` how it settles the
release request. The failure callback has an empty body and so returns `undefined`. -/
def AuthoringService.publish (item : Item) (publishStore unlockStore : Promise Item) :
    Run JsVal :=
  match publishStore with
  | Promise.resolved result =>
    let u := LockService.unlock result unlockStore
    ⟨Call.apiUpdate "archive_publish" item [] :: u.trace, u.promise.mapValue obj⟩
  | Promise.rejected _ =>
    ⟨[Call.apiUpdate "archive_publish" item []], Promise.resolved undefined⟩
  | Promise.pending => ⟨[Call.apiUpdate "archive_publish" item []], Promise.pending⟩

/-- Source: `AuthoringService.unlock(item, userId)`, the callback for `item:unlock`:
the service afterwards, the item afterwards and the call issued. -/
def AuthoringService.unlock (s : AutosaveState) (item : Item) (userId : JsVal) :
    AutosaveState × Item × List Call :=
  (AutosaveService.stopAutosave s item,
    setProp (setProp (setProp item "lock_session" null) "lock_user" null) "_locked"
      (bool false),
    [Call.confirmUnlock userId])

/-! ## AuthoringDirective (the controller) -/

/-- The controller state that the handlers below read and write: `$scope.origItem`,
`$scope.item`, `$scope.dirty`, `$scope._editable` and the local `_closing` flag. -/
structure Scope where
  origItem : Item
  item : Item
  dirty : Bool
  editable : JsVal
  closing : Bool

/-- The failure callback of `$scope.save`: the notifications it raises, or `none` when it
throws a `TypeError` on a member access. -/
def AuthoringDirective.saveFailed (response : JsVal) : Option (List Call) :=
  match response.member? "data" with
  | none => none
  | some data =>
    match data.member? "_issues" with
    | none => none
    | some issues =>
      if issues.isDefined then
        match issues.member? "unique_name" with
        | none => none
        | some uniqueName =>
          match (if uniqueName.isDefined then uniqueName.member? "unique"
              else some undefined) with
          | none => none
          | some unique =>
            if uniqueName.isDefined && unique.strictEq (num 1) then
              some [Call.notifyError "Error: Unique Name is not unique."]
            else
              match issues.member? "validator exception" with
              | none => none
              | some exception =>
                if exception.isDefined then
                  some [Call.notifyError ("Error: " ++ exception.toStr)]
                else some []
      else some [Call.notifyError "Error. Item not updated."]

/-- Source: `$scope.save()`. `store` is how the record store settles the save. -/
def AuthoringDirective.save (session : Session) (scope : Scope) (store : Promise Item) :
    Scope × Run JsVal :=
  let s := AuthoringService.save session (some scope.origItem) (some scope.item) store
  match s.promise with
  | Promise.resolved res =>
    (⟨res, res, false, scope.editable, scope.closing⟩,
      ⟨s.trace ++ [Call.notifySuccess "Item updated."], Promise.resolved (obj res)⟩)
  | Promise.rejected response =>
    match AuthoringDirective.saveFailed response with
    | some calls => (scope, ⟨s.trace ++ calls, Promise.resolved undefined⟩)
    | none => (scope, ⟨s.trace, Promise.rejected typeError⟩)
  | Promise.pending => (scope, ⟨s.trace, Promise.pending⟩)

/-- Source: `publishItem(item)` of the controller. -/
def AuthoringDirective.publishItem (scope : Scope) (item : Item)
    (publishStore unlockStore : Promise Item) : Scope × List Call :=
  let p := AuthoringService.publish item publishStore unlockStore
  match p.promise with
  | Promise.resolved res =>
    if res.truthy then
      (⟨scope.origItem, res.asItem, false, scope.editable, scope.closing⟩,
        p.trace ++ [Call.notifySuccess "Item published."])
    else (scope, p.trace)
  | Promise.rejected _ => (scope, p.trace ++ [Call.notifyError "Error. Item not published."])
  | Promise.pending => (scope, p.trace)

/-- The payload of an `item:unlock` notification. -/
structure UnlockNotice where
  item : JsVal
  user : JsVal
  lock_session : JsVal

/-- Source: the `item:unlock` handler of the controller; the scope, the autosave service
and the calls issued afterwards. -/
def AuthoringDirective.onItemUnlock (session : Session) (scope : Scope) (s : AutosaveState)
    (data : UnlockNotice) : Scope × AutosaveState × List Call :=
  if (readProp scope.item "_id").strictEq data.item && !scope.closing
      && !data.lock_session.strictEqStr session.sessionId then
    let r := AuthoringService.unlock s scope.item data.user
    let item1 := setProp r.2.1 "_editable" (bool false)
    let item2 := setProp item1 "_locked" (bool false)
    let item3 := setProp item2 "lock_session" null
    let item4 := setProp item3 "lock_user" null
    (⟨scope.origItem, item4, scope.dirty, bool false, scope.closing⟩, r.1, r.2.2)
  else (scope, s, [])

/-- Whether a call raises an error notification. -/
def Call.isErrorNotification : Call → Bool
  | Call.notifyError _ => true
  | _ => false

/-! ## Basic facts about values and items -/

theorem strictEqStr_iff (v : JsVal) (s : String) : v.strictEqStr s = true ↔ v = JsVal.str s := by
  cases v <;> simp [JsVal.strictEqStr]

theorem truthy_getLockedUserId (item : Item) :
    (LockService.getLockedUserId item).truthy = (readProp item "lock_user").truthy := by
  unfold LockService.getLockedUserId JsVal.or JsVal.and
  cases h : (readProp item "lock_user").truthy <;> simp [h]
  split <;> simp_all

theorem isLocked_eq (session : Session) (item : Item) :
    LockService.isLocked session item =
      ((readProp item "lock_user").truthy
        && (!(LockService.getLockedUserId item).strictEqStr session.identityId
          || ((readProp item "lock_session").truthy
            && !(readProp item "lock_session").strictEqStr session.sessionId))) := by
  unfold LockService.isLocked
  simp only [truthy_getLockedUserId]
  cases (readProp item "lock_user").truthy <;>
    cases (LockService.getLockedUserId item).strictEqStr session.identityId <;>
    cases (readProp item "lock_session").truthy <;>
    cases (readProp item "lock_session").strictEqStr session.sessionId <;> rfl

theorem isLocked_iff (session : Session) (item : Item) :
    LockService.isLocked session item = true ↔
      (readProp item "lock_user").truthy = true
        ∧ (LockService.getLockedUserId item ≠ JsVal.str session.identityId
          ∨ ((readProp item "lock_session").truthy = true
            ∧ readProp item "lock_session" ≠ JsVal.str session.sessionId)) := by
  rw [isLocked_eq]
  simp only [Bool.and_eq_true, Bool.or_eq_true, Bool.not_eq_true', ne_eq, ← strictEqStr_iff,
    Bool.not_eq_true]

/-! ## Items as finite maps -/

theorem getProp?_deleteProp (o : Item) (k k' : String) :
    getProp? (deleteProp o k) k' = if k = k' then none else getProp? o k' := by
  induction o with
  | nil => simp [deleteProp, getProp?]
  | cons p rest ih =>
    obtain ⟨a, v⟩ := p
    unfold deleteProp at ih ⊢
    rw [List.filter_cons]
    by_cases h : a = k
    · subst h
      by_cases h2 : a = k'
      · simpa [getProp?, h2] using ih
      · simpa [getProp?, h2] using ih
    · by_cases h2 : k = k'
      · subst h2
        simpa [getProp?, h] using ih
      · by_cases h3 : a = k'
        · subst h3
          simp [getProp?, h, h2]
        · simpa [getProp?, h, h2, h3] using ih

theorem getProp?_setProp (o : Item) (k k' : String) (v : JsVal) :
    getProp? (setProp o k v) k' = if k = k' then some v else getProp? o k' := by
  unfold setProp
  by_cases h : k = k'
  · simp [getProp?, h]
  · simp [getProp?, h, getProp?_deleteProp]

theorem readProp_setProp (o : Item) (k k' : String) (v : JsVal) :
    readProp (setProp o k v) k' = if k = k' then v else readProp o k' := by
  unfold readProp
  rw [getProp?_setProp]
  split <;> rfl

theorem mem_keysOf_iff (o : Item) (k : String) :
    k ∈ keysOf o ↔ (getProp? o k).isSome = true := by
  induction o with
  | nil => simp [keysOf, getProp?]
  | cons p rest ih =>
    obtain ⟨a, v⟩ := p
    unfold keysOf at ih ⊢
    by_cases h : a = k
    · simp [getProp?, h]
    · have h' : ¬ k = a := fun e => h e.symm
      simp [getProp?, h, h', ih]

theorem eq_nil_of_getProp?_none (o : Item) (h : ∀ k, getProp? o k = none) : o = [] := by
  cases o with
  | nil => rfl
  | cons p rest =>
    obtain ⟨a, v⟩ := p
    have := h a
    simp [getProp?] at this

theorem getProp?_foldl_setProp (src : Item) (k : String) (ks : List String) (d : Item) :
    getProp? (ks.foldl (fun d key => setProp d key (readProp src key)) d) k
      = if k ∈ ks then some (readProp src k) else getProp? d k := by
  induction ks generalizing d with
  | nil => simp
  | cons a rest ih =>
    rw [List.foldl_cons, ih, getProp?_setProp]
    by_cases h1 : k ∈ rest
    · simp [h1]
    · by_cases h2 : a = k
      · subst h2
        simp [h1]
      · have h3 : ¬ k = a := fun e => h2 e.symm
        simp [h1, h2, h3]

theorem getProp?_extend (dst src : Item) (k : String) :
    getProp? (extend dst src) k
      = if (getProp? src k).isSome then getProp? src k else getProp? dst k := by
  unfold extend
  rw [getProp?_foldl_setProp]
  by_cases h : (getProp? src k).isSome = true
  · have hk : k ∈ keysOf src := (mem_keysOf_iff src k).2 h
    obtain ⟨v, hv⟩ := Option.isSome_iff_exists.1 h
    simp [hk, readProp, hv]
  · have hk : ¬ k ∈ keysOf src := fun hk => h ((mem_keysOf_iff src k).1 hk)
    simp [hk, h]

theorem getProp?_foldl_pick (src : Item) (k : String) (keys : List String) (r : Item) :
    getProp? (keys.foldl (fun result key =>
        match getProp? src key with
        | some v => setProp result key v
        | none => result) r) k
      = if k ∈ keys ∧ (getProp? src k).isSome then getProp? src k else getProp? r k := by
  induction keys generalizing r with
  | nil => simp
  | cons a rest ih =>
    rw [List.foldl_cons, ih]
    by_cases h2 : a = k
    · subst h2
      cases hs : getProp? src a with
      | none => simp
      | some v => simp [getProp?_setProp]
    · have h3 : ¬ k = a := fun e => h2 e.symm
      cases hs : getProp? src a with
      | none => simp [h3]
      | some v => simp [getProp?_setProp, h2, h3]

theorem getProp?_pick (src : Item) (keys : List String) (k : String) :
    getProp? (pick src keys) k = if k ∈ keys then getProp? src k else none := by
  unfold pick
  rw [getProp?_foldl_pick]
  by_cases h : k ∈ keys
  · cases hs : getProp? src k <;> simp [h, getProp?]
  · simp [h, getProp?]

theorem getProp?_extendItem (dest src : Item) (k : String) :
    getProp? (extendItem dest src) k
      = if k ∈ keysOf CONTENT_FIELDS_DEFAULTS ∧ (getProp? src k).isSome = true
          then getProp? src k else getProp? dest k := by
  unfold extendItem
  rw [getProp?_extend, getProp?_pick]
  by_cases h : k ∈ keysOf CONTENT_FIELDS_DEFAULTS
  · simp [h]
  · simp [h]

theorem getProp?_forcedExtendStep_other (src d : Item) (e : String × JsVal) (k : String)
    (h : e.1 ≠ k) : getProp? (forcedExtendStep src d e) k = getProp? d k := by
  unfold forcedExtendStep
  split <;> split <;> simp [getProp?_setProp, h]

theorem getProp?_forcedExtendStep_self (src d : Item) (k : String) (v : JsVal) :
    getProp? (forcedExtendStep src d (k, v)) k
      = if (readProp d k).truthy then
          (if (readProp src k).truthy then some (readProp src k) else some v)
        else
          (if (readProp src k).truthy then some (readProp src k) else getProp? d k) := by
  unfold forcedExtendStep
  split <;> split <;> simp [getProp?_setProp]

theorem getProp?_foldl_forcedExtendStep (src : Item) (k : String) (l : Item)
    (hn : (keysOf l).Nodup) (d : Item) :
    getProp? (l.foldl (forcedExtendStep src) d) k
      = match getProp? l k with
        | some v => getProp? (forcedExtendStep src d (k, v)) k
        | none => getProp? d k := by
  induction l generalizing d with
  | nil => simp [getProp?]
  | cons p rest ih =>
    obtain ⟨a, w⟩ := p
    have hn' : a ∉ keysOf rest ∧ (keysOf rest).Nodup := by
      simpa [keysOf] using hn
    rw [List.foldl_cons, ih hn'.2]
    by_cases h : a = k
    · subst h
      have hnone : getProp? rest a = none := by
        cases hr : getProp? rest a with
        | none => rfl
        | some x =>
          exact absurd ((mem_keysOf_iff rest a).2 (by simp [hr])) hn'.1
      simp [getProp?, hnone]
    · have hd : getProp? (forcedExtendStep src d (a, w)) k = getProp? d k :=
        getProp?_forcedExtendStep_other src d (a, w) k h
      have hr : readProp (forcedExtendStep src d (a, w)) k = readProp d k := by
        simp [readProp, hd]
      simp only [getProp?, h, if_false]
      cases getProp? rest k with
      | none => simpa using hd
      | some x => simp [getProp?_forcedExtendStep_self, hr, hd]

theorem nodup_keysOf_defaults : (keysOf CONTENT_FIELDS_DEFAULTS).Nodup := by
  decide

theorem getProp?_forcedExtend (dest src : Item) (k : String) :
    getProp? (forcedExtend dest src) k
      = match getProp? CONTENT_FIELDS_DEFAULTS k with
        | some v =>
          if (readProp dest k).truthy then
            (if (readProp src k).truthy then some (readProp src k) else some v)
          else
            (if (readProp src k).truthy then some (readProp src k) else getProp? dest k)
        | none => getProp? dest k := by
  unfold forcedExtend
  rw [getProp?_foldl_forcedExtendStep src k _ nodup_keysOf_defaults]
  cases getProp? CONTENT_FIELDS_DEFAULTS k with
  | none => rfl
  | some v => simp [getProp?_forcedExtendStep_self]

theorem getProp?_pruneStep (orig d : Item) (a k : String) :
    getProp? (pruneStep orig d a) k
      = if a = k ∧ (readProp d a).isEqual (readProp orig a) = true then none
        else getProp? d k := by
  unfold pruneStep
  by_cases h : (readProp d a).isEqual (readProp orig a) = true
  · by_cases h2 : a = k
    · subst h2
      simp [h, getProp?_deleteProp]
    · simp [h, h2, getProp?_deleteProp]
  · simp [h]

theorem getProp?_foldl_pruneStep (orig : Item) (k : String) (ks : List String) (d : Item) :
    getProp? (ks.foldl (pruneStep orig) d) k
      = if k ∈ ks ∧ (readProp d k).isEqual (readProp orig k) = true then none
        else getProp? d k := by
  induction ks generalizing d with
  | nil => simp
  | cons a rest ih =>
    rw [List.foldl_cons, ih]
    have hread : readProp (pruneStep orig d a) k
        = if a = k ∧ (readProp d a).isEqual (readProp orig a) = true then JsVal.undefined
          else readProp d k := by
      have hg := getProp?_pruneStep orig d a k
      by_cases hc : a = k ∧ (readProp d a).isEqual (readProp orig a) = true
      · rw [if_pos hc] at hg ⊢
        simp [readProp, hg]
      · rw [if_neg hc] at hg ⊢
        simp [readProp, hg]
    rw [hread, getProp?_pruneStep]
    by_cases h2 : a = k
    · subst h2
      by_cases h : (readProp d a).isEqual (readProp orig a) = true
      · simp [h]
      · simp [h]
    · have h3 : ¬ k = a := fun e => h2 e.symm
      simp [h2, h3]

theorem getProp?_saveDiff (orig item : Item) (k : String) :
    getProp? (saveDiff (some orig) item) k
      = if k ∈ keysOf CONTENT_FIELDS_DEFAULTS ∧ (getProp? item k).isSome = true
            ∧ (readProp item k).isEqual (readProp orig k) = false
          then getProp? item k else none := by
  unfold saveDiff
  simp only
  rw [getProp?_foldl_pruneStep]
  have hd := getProp?_extendItem [] item k
  by_cases h : k ∈ keysOf CONTENT_FIELDS_DEFAULTS ∧ (getProp? item k).isSome = true
  · rw [if_pos h] at hd
    have hmem : k ∈ keysOf (extendItem [] item) :=
      (mem_keysOf_iff _ _).2 (by rw [hd]; exact h.2)
    have hr : readProp (extendItem [] item) k = readProp item k := by
      simp [readProp, hd]
    rw [hr, hd]
    cases he : (readProp item k).isEqual (readProp orig k) <;> simp [h, hmem]
  · rw [if_neg h] at hd
    have h' : ¬ (k ∈ keysOf CONTENT_FIELDS_DEFAULTS ∧ (getProp? item k).isSome = true
        ∧ (readProp item k).isEqual (readProp orig k) = false) := fun hh => h ⟨hh.1, hh.2.1⟩
    rw [hd, if_neg h']
    simp [getProp?]

/-! ## Lock and close workflow -/

theorem isLocked_of_own_session (item : Item) (u s : String)
    (hu : readProp item "lock_user" = JsVal.str u)
    (hs : readProp item "lock_session" = JsVal.str s) :
    LockService.isLocked ⟨u, s⟩ item = false := by
  rw [isLocked_eq]
  unfold LockService.getLockedUserId JsVal.or JsVal.and
  rw [hu, hs]
  by_cases h : u = ""
  · simp [JsVal.truthy, h]
  · simp [JsVal.truthy, JsVal.member, JsVal.strictEqStr, h]

theorem lock_attempt_cond (item : Item) (force : JsVal)
    (h : force.truthy = true ∨ ((readProp item "lock_user").truthy = false
      ∧ (readProp item "_editable").truthy = true)) :
    ((!(readProp item "lock_user").truthy && (readProp item "_editable").truthy)
      || force.truthy) = true := by
  rcases h with h | h
  · simp [h]
  · simp [h.1, h.2]

theorem lock_attempt_resolved (session : Session) (item : Item) (force : JsVal)
    (payload : Item)
    (h : force.truthy = true ∨ ((readProp item "lock_user").truthy = false
      ∧ (readProp item "_editable").truthy = true)) :
    (LockService.lock session item force (Promise.resolved payload)).promise
      = Promise.resolved
          (setProp (setProp (setProp (extend item payload) "_locked" (bool false))
            "lock_user" (str session.identityId)) "lock_session" (str session.sessionId)) := by
  unfold LockService.lock
  rw [if_pos (lock_attempt_cond item force h)]

theorem lock_attempt_rejected (session : Session) (item : Item) (force : JsVal)
    (err : JsVal)
    (h : force.truthy = true ∨ ((readProp item "lock_user").truthy = false
      ∧ (readProp item "_editable").truthy = true)) :
    (LockService.lock session item force (Promise.rejected err)).promise
      = Promise.resolved (setProp item "_locked" (bool true)) := by
  unfold LockService.lock
  rw [if_pos (lock_attempt_cond item force h)]

theorem close_of_not_editable (session : Session) (diff : Item) (orig : Option Item)
    (isDirty : Bool) (answer : Promise JsVal) (saveStore unlockStore : Promise Item)
    (h : AuthoringService.isEditable session diff = false) :
    AuthoringService.close session diff orig isDirty answer saveStore unlockStore
      = ⟨[], Promise.resolved undefined⟩ := by
  unfold AuthoringService.close
  simp [h]

theorem close_declined (session : Session) (diff : Item) (orig : Option Item)
    (reason : JsVal) (saveStore unlockStore : Promise Item)
    (h : AuthoringService.isEditable session diff = true) :
    AuthoringService.close session diff orig true (Promise.rejected reason) saveStore
        unlockStore
      = ⟨Call.confirm :: (LockService.unlock diff unlockStore).trace,
          (LockService.unlock diff unlockStore).promise.mapValue obj⟩ := by
  unfold AuthoringService.close
  simp [h]

theorem close_clean (session : Session) (diff : Item) (orig : Option Item)
    (answer : Promise JsVal) (saveStore unlockStore : Promise Item)
    (h : AuthoringService.isEditable session diff = true) :
    AuthoringService.close session diff orig false answer saveStore unlockStore
      = ⟨(LockService.unlock diff unlockStore).trace,
          (LockService.unlock diff unlockStore).promise.mapValue obj⟩ := by
  unfold AuthoringService.close
  simp [h]

theorem unlock_trace (item : Item) (store : Promise Item) :
    (LockService.unlock item store).trace = [unlockRequest item] := by
  unfold LockService.unlock
  cases store <;> rfl

/-! ## Release, publish and privilege checks -/

theorem unlock_resolved (item payload : Item) :
    (LockService.unlock item (Promise.resolved payload)).promise
      = Promise.resolved (setProp (extend item payload) "_locked" (bool true)) := rfl

theorem unlock_rejected (item : Item) (err : JsVal) :
    (LockService.unlock item (Promise.rejected err)).promise
      = Promise.resolved (setProp item "_locked" (bool true)) := rfl

theorem readProp_eq_of_getProp? (a b : Item) (k : String) (h : getProp? a k = getProp? b k) :
    readProp a k = readProp b k := by
  simp [readProp, h]

theorem truthy_isLockedByMe (session : Session) (item : Item) :
    (LockService.isLockedByMe session item).truthy
      = ((readProp item "lock_user").truthy
          && (LockService.getLockedUserId item).strictEqStr session.identityId) := by
  unfold LockService.isLockedByMe JsVal.and
  rw [← truthy_getLockedUserId]
  cases h : (LockService.getLockedUserId item).truthy with
  | false => simp [h]
  | true =>
    simp only [h, if_true, Bool.true_and]
    rfl

theorem getLockedUserId_of_bare (item : Item) (u : String) (hu : u ≠ "")
    (h : readProp item "lock_user" = str u) : LockService.getLockedUserId item = str u := by
  unfold LockService.getLockedUserId JsVal.or JsVal.and
  rw [h]
  simp [JsVal.truthy, JsVal.member, hu]

theorem getLockedUserId_of_embedded (item props : Item) (u : String) (hu : u ≠ "")
    (h : readProp item "lock_user" = obj props) (hid : readProp props "_id" = str u) :
    LockService.getLockedUserId item = str u := by
  unfold LockService.getLockedUserId JsVal.or JsVal.and
  rw [h]
  simp [JsVal.truthy, JsVal.member, hid, hu]

/-! ## The autosave timers -/

theorem stopAutosave_of_none (s : AutosaveState) (item : Item)
    (h : s.timeouts (timerKey item) = none) : AutosaveService.stopAutosave s item = s := by
  unfold AutosaveService.stopAutosave
  rw [h]

theorem stopAutosave_of_some (s : AutosaveState) (item : Item) (h0 : Nat)
    (h : s.timeouts (timerKey item) = some h0) :
    AutosaveService.stopAutosave s item
      = ⟨s.now, s.nextHandle, fun k => if k = timerKey item then none else s.timeouts k,
          s.queue.filter (fun t => t.handle != h0), s.log⟩ := by
  unfold AutosaveService.stopAutosave
  rw [h]

theorem consistent_start : AutosaveState.start.Consistent := by
  unfold AutosaveState.Consistent AutosaveState.start pendingFor
  simp

theorem consistent_stopAutosave (s : AutosaveState) (item : Item) (hs : s.Consistent) :
    (AutosaveService.stopAutosave s item).Consistent := by
  cases h : s.timeouts (timerKey item) with
  | none =>
    rw [stopAutosave_of_none s item h]
    exact hs
  | some h0 =>
    rw [stopAutosave_of_some s item h0 h]
    unfold AutosaveState.Consistent at hs ⊢
    obtain ⟨h1, h2, h3, h4⟩ := hs
    refine ⟨?_, ?_, ?_, ?_⟩
    · intro t ht
      simp only [List.mem_filter] at ht
      have hk : t.key ≠ timerKey item := by
        intro e
        have h5 := h1 t ht.1
        rw [e, h] at h5
        have h6 : h0 = t.handle := Option.some.inj h5
        simp [h6] at ht
      simp only [hk, if_false]
      exact h1 t ht.1
    · intro k h' hk
      simp only at hk
      split at hk
      · cases hk
      · exact h2 k h' hk
    · intro k1 k2 h' e1 e2
      simp only at e1 e2
      split at e1
      · cases e1
      · split at e2
        · cases e2
        · exact h3 k1 k2 h' e1 e2
    · intro k
      unfold pendingFor at h4 ⊢
      simp only
      rw [List.filter_comm]
      exact le_trans (List.length_filter_le _ _) (h4 k)

theorem timeouts_stopAutosave_self (s : AutosaveState) (item : Item) :
    (AutosaveService.stopAutosave s item).timeouts (timerKey item) = none := by
  cases h : s.timeouts (timerKey item) with
  | none =>
    rw [stopAutosave_of_none s item h]
    exact h
  | some h0 =>
    rw [stopAutosave_of_some s item h0 h]
    simp

theorem pendingFor_eq_nil_of_timeouts_none (s : AutosaveState) (k : String)
    (hs : s.Consistent) (h : s.timeouts k = none) : pendingFor k s = [] := by
  unfold pendingFor
  rw [List.filter_eq_nil_iff]
  intro t ht hk
  have hk' : t.key = k := by simpa using hk
  have h1 := hs.1 t ht
  rw [hk', h] at h1
  cases h1

theorem pendingFor_stopAutosave_self (s : AutosaveState) (item : Item) (hs : s.Consistent) :
    pendingFor (timerKey item) (AutosaveService.stopAutosave s item) = [] :=
  pendingFor_eq_nil_of_timeouts_none _ _ (consistent_stopAutosave s item hs)
    (timeouts_stopAutosave_self s item)

theorem pendingFor_stopAutosave_other (s : AutosaveState) (item : Item) (k : String)
    (hs : s.Consistent) (hk : k ≠ timerKey item) :
    pendingFor k (AutosaveService.stopAutosave s item) = pendingFor k s := by
  cases h : s.timeouts (timerKey item) with
  | none => rw [stopAutosave_of_none s item h]
  | some h0 =>
    rw [stopAutosave_of_some s item h0 h]
    unfold pendingFor
    simp only
    rw [List.filter_filter]
    apply List.filter_congr
    intro t ht
    cases hkey : (t.key == k) with
    | false => rfl
    | true =>
      have hk' : t.key = k := by simpa using hkey
      have hne : t.handle ≠ h0 := by
        intro e
        have h1 := hs.1 t ht
        rw [e] at h1
        exact hk (hk' ▸ hs.2.2.1 t.key (timerKey item) h0 h1 h)
      simp [hne]

theorem saveAutosave_eq (s : AutosaveState) (ref : Nat) (item : Item) :
    AutosaveService.saveAutosave s ref item
      = ⟨(AutosaveService.stopAutosave s item).now,
          (AutosaveService.stopAutosave s item).nextHandle + 1,
          fun k => if k = timerKey item
            then some (AutosaveService.stopAutosave s item).nextHandle
            else (AutosaveService.stopAutosave s item).timeouts k,
          (AutosaveService.stopAutosave s item).queue
            ++ [⟨(AutosaveService.stopAutosave s item).nextHandle,
                (AutosaveService.stopAutosave s item).now + AUTOSAVE_TIMEOUT,
                timerKey item, ref⟩],
          (AutosaveService.stopAutosave s item).log⟩ := rfl

theorem now_stopAutosave (s : AutosaveState) (item : Item) :
    (AutosaveService.stopAutosave s item).now = s.now := by
  unfold AutosaveService.stopAutosave
  split <;> rfl

theorem nextHandle_stopAutosave (s : AutosaveState) (item : Item) :
    (AutosaveService.stopAutosave s item).nextHandle = s.nextHandle := by
  unfold AutosaveService.stopAutosave
  split <;> rfl

theorem log_stopAutosave (s : AutosaveState) (item : Item) :
    (AutosaveService.stopAutosave s item).log = s.log := by
  unfold AutosaveService.stopAutosave
  split <;> rfl

theorem pendingFor_saveAutosave_self (s : AutosaveState) (ref : Nat) (item : Item)
    (hs : s.Consistent) :
    pendingFor (timerKey item) (AutosaveService.saveAutosave s ref item)
      = [⟨s.nextHandle, s.now + AUTOSAVE_TIMEOUT, timerKey item, ref⟩] := by
  have h0 := pendingFor_stopAutosave_self s item hs
  rw [saveAutosave_eq]
  unfold pendingFor at h0 ⊢
  simp only
  rw [List.filter_append, h0, now_stopAutosave, nextHandle_stopAutosave]
  simp

theorem pendingFor_saveAutosave_other (s : AutosaveState) (ref : Nat) (item : Item)
    (k : String) (hs : s.Consistent) (hk : k ≠ timerKey item) :
    pendingFor k (AutosaveService.saveAutosave s ref item) = pendingFor k s := by
  have h0 := pendingFor_stopAutosave_other s item k hs hk
  rw [saveAutosave_eq]
  unfold pendingFor at h0 ⊢
  simp only
  rw [List.filter_append, h0]
  have hk' : ¬ timerKey item = k := fun e => hk e.symm
  simp [hk']

theorem consistent_saveAutosave (s : AutosaveState) (ref : Nat) (item : Item)
    (hs : s.Consistent) : (AutosaveService.saveAutosave s ref item).Consistent := by
  have hc := consistent_stopAutosave s item hs
  have hnone := timeouts_stopAutosave_self s item
  have hself := pendingFor_saveAutosave_self s ref item hs
  have hother := fun k hk => pendingFor_saveAutosave_other s ref item k hs hk
  have hstop := fun k hk => pendingFor_stopAutosave_other s item k hs hk
  have h4s := hs.2.2.2
  rw [saveAutosave_eq] at hself hother ⊢
  generalize AutosaveService.stopAutosave s item = s1 at hc hnone hself hother hstop ⊢
  unfold AutosaveState.Consistent at hc ⊢
  obtain ⟨h1, h2, h3, _⟩ := hc
  refine ⟨?_, ?_, ?_, ?_⟩
  · intro t ht
    simp only [List.mem_append, List.mem_singleton] at ht
    rcases ht with ht | ht
    · have hk : t.key ≠ timerKey item := by
        intro e
        have h5 := h1 t ht
        rw [e, hnone] at h5
        cases h5
      simp only [hk, if_false]
      exact h1 t ht
    · subst ht
      simp
  · intro k h' hk
    simp only at hk ⊢
    split at hk
    · cases hk
      exact Nat.lt_succ_self _
    · exact Nat.lt_succ_of_lt (h2 k h' hk)
  · intro k1 k2 h' e1 e2
    simp only at e1 e2
    split at e1
    · split at e2
      · rename_i a b
        rw [a, b]
      · cases e1
        exact absurd (h2 k2 _ e2) (Nat.lt_irrefl _)
    · split at e2
      · cases e2
        exact absurd (h2 k1 _ e1) (Nat.lt_irrefl _)
      · exact h3 k1 k2 h' e1 e2
  · intro k
    by_cases hk : k = timerKey item
    · subst hk
      rw [hself]
      simp
    · rw [hother k hk]
      exact h4s k

theorem consistent_advanceClock (s : AutosaveState) (dt : Nat) (current : Nat → Item)
    (hs : s.Consistent) : (advanceClock s dt current).Consistent := by
  unfold AutosaveState.Consistent at hs ⊢
  obtain ⟨h1, h2, h3, h4⟩ := hs
  unfold advanceClock
  refine ⟨?_, h2, h3, ?_⟩
  · intro t ht
    simp only [List.mem_filter] at ht
    exact h1 t ht.1
  · intro k
    unfold pendingFor at h4 ⊢
    simp only
    rw [List.filter_comm]
    exact le_trans (List.length_filter_le _ _) (h4 k)

theorem consistent_stepEvent (s : AutosaveState) (e : Event) (hs : s.Consistent) :
    (stepEvent s e).Consistent := by
  cases e with
  | save ref item => exact consistent_saveAutosave s ref item hs
  | stop item => exact consistent_stopAutosave s item hs
  | drop item => exact consistent_stopAutosave s item hs
  | advance dt current => exact consistent_advanceClock s dt current hs

theorem consistent_runEvents (events : List Event) (s : AutosaveState) (hs : s.Consistent) :
    (runEvents s events).Consistent := by
  induction events generalizing s with
  | nil => exact hs
  | cons e rest ih => exact ih (stepEvent s e) (consistent_stepEvent s e hs)

theorem runEvents_append (s : AutosaveState) (a b : List Event) :
    runEvents s (a ++ b) = runEvents (runEvents s a) b := by
  unfold runEvents
  rw [List.foldl_append]

theorem runEvents_cons (s : AutosaveState) (e : Event) (rest : List Event) :
    runEvents s (e :: rest) = runEvents (stepEvent s e) rest := rfl

theorem pendingFor_advanceClock (s : AutosaveState) (dt : Nat) (current : Nat → Item)
    (k : String) :
    pendingFor k (advanceClock s dt current)
      = (pendingFor k s).filter (fun t => decide (s.now + dt < t.due)) := by
  unfold pendingFor advanceClock
  simp only
  rw [List.filter_comm]

theorem upsertsFor_advanceClock (s : AutosaveState) (dt : Nat) (current : Nat → Item)
    (k : String) :
    upsertsFor k (advanceClock s dt current)
      = upsertsFor k s
        ++ ((pendingFor k s).filter (fun t => decide (t.due ≤ s.now + dt))).map
            (fireTimer current) := by
  unfold upsertsFor pendingFor advanceClock
  simp only
  rw [List.filter_append, List.filter_map, List.filter_comm]
  rfl

theorem upsertsFor_stopAutosave (s : AutosaveState) (item : Item) (k : String) :
    upsertsFor k (AutosaveService.stopAutosave s item) = upsertsFor k s := by
  unfold upsertsFor
  rw [log_stopAutosave]

theorem upsertsFor_saveAutosave (s : AutosaveState) (ref : Nat) (item : Item) (k : String) :
    upsertsFor k (AutosaveService.saveAutosave s ref item) = upsertsFor k s := by
  rw [saveAutosave_eq]
  unfold upsertsFor
  simp only
  rw [log_stopAutosave]

theorem now_saveAutosave (s : AutosaveState) (ref : Nat) (item : Item) :
    (AutosaveService.saveAutosave s ref item).now = s.now := by
  rw [saveAutosave_eq]
  exact now_stopAutosave s item

theorem foreign_events_keep_timer (k : String) (t : Timer) (events : List Event)
    (hf : ∀ e ∈ events, e.foreignTo k = true) (s : AutosaveState) (hs : s.Consistent)
    (hp : pendingFor k s = [t]) (hd : s.now + elapsedOf events < t.due) :
    (runEvents s events).Consistent
      ∧ pendingFor k (runEvents s events) = [t]
      ∧ upsertsFor k (runEvents s events) = upsertsFor k s
      ∧ (runEvents s events).now = s.now + elapsedOf events := by
  induction events generalizing s with
  | nil => exact ⟨hs, hp, rfl, by simp [runEvents, elapsedOf]⟩
  | cons e rest ih =>
    have hfe := hf e (List.mem_cons_self e rest)
    have hfr : ∀ e' ∈ rest, e'.foreignTo k = true :=
      fun e' he' => hf e' (List.mem_cons_of_mem e he')
    have hel : elapsedOf (e :: rest) = e.elapsed + elapsedOf rest := by
      simp [elapsedOf]
    rw [hel] at hd ⊢
    rw [runEvents_cons]
    have hstep : (stepEvent s e).Consistent ∧ pendingFor k (stepEvent s e) = [t]
        ∧ upsertsFor k (stepEvent s e) = upsertsFor k s
        ∧ (stepEvent s e).now = s.now + e.elapsed := by
      cases e with
      | save ref item =>
        have hk : k ≠ timerKey item := by
          intro e
          simp [Event.foreignTo, e] at hfe
        exact ⟨consistent_saveAutosave s ref item hs,
          (pendingFor_saveAutosave_other s ref item k hs hk).trans hp,
          upsertsFor_saveAutosave s ref item k, now_saveAutosave s ref item⟩
      | stop item =>
        have hk : k ≠ timerKey item := by
          intro e
          simp [Event.foreignTo, e] at hfe
        exact ⟨consistent_stopAutosave s item hs,
          (pendingFor_stopAutosave_other s item k hs hk).trans hp,
          upsertsFor_stopAutosave s item k, now_stopAutosave s item⟩
      | drop item =>
        have hk : k ≠ timerKey item := by
          intro e
          simp [Event.foreignTo, e] at hfe
        exact ⟨consistent_stopAutosave s item hs,
          (pendingFor_stopAutosave_other s item k hs hk).trans hp,
          upsertsFor_stopAutosave s item k, now_stopAutosave s item⟩
      | advance dt current =>
        have hlt : s.now + dt < t.due := by
          simp only [Event.elapsed] at hd
          omega
        refine ⟨consistent_advanceClock s dt current hs, ?_, ?_, rfl⟩
        · show pendingFor k (advanceClock s dt current) = [t]
          rw [pendingFor_advanceClock, hp]
          simp [hlt]
        · show upsertsFor k (advanceClock s dt current) = upsertsFor k s
          rw [upsertsFor_advanceClock, hp]
          have hnot : ¬ t.due ≤ s.now + dt := by omega
          simp [hnot]
    obtain ⟨h1, h2, h3, h4⟩ := hstep
    have hd' : (stepEvent s e).now + elapsedOf rest < t.due := by
      rw [h4]
      omega
    obtain ⟨i1, i2, i3, i4⟩ := ih hfr (stepEvent s e) h1 h2 hd'
    refine ⟨i1, i2, i3.trans h3, ?_⟩
    rw [i4, h4]
    omega

theorem burst_keeps_one_timer (ref : Nat) (k : String) (gaps : List (List Event × Item))
    (hg : ∀ g ∈ gaps, (∀ e ∈ g.1, e.foreignTo k = true) ∧ elapsedOf g.1 < AUTOSAVE_TIMEOUT
      ∧ timerKey g.2 = k)
    (s : AutosaveState) (hs : s.Consistent) (h : Nat)
    (hp : pendingFor k s = [⟨h, s.now + AUTOSAVE_TIMEOUT, k, ref⟩]) :
    (runEvents s (burstEvents ref gaps)).Consistent
      ∧ (∃ h1, pendingFor k (runEvents s (burstEvents ref gaps))
          = [⟨h1, (runEvents s (burstEvents ref gaps)).now + AUTOSAVE_TIMEOUT, k, ref⟩])
      ∧ upsertsFor k (runEvents s (burstEvents ref gaps)) = upsertsFor k s
      ∧ (runEvents s (burstEvents ref gaps)).now = s.now + burstElapsed gaps := by
  induction gaps generalizing s h with
  | nil => exact ⟨hs, ⟨h, hp⟩, rfl, by simp [runEvents, burstEvents, burstElapsed]⟩
  | cons g rest ih =>
    obtain ⟨events, item⟩ := g
    obtain ⟨hf, hlt, hkey⟩ := hg (events, item) (List.mem_cons_self _ _)
    have hrest : ∀ g ∈ rest, (∀ e ∈ g.1, e.foreignTo k = true)
        ∧ elapsedOf g.1 < AUTOSAVE_TIMEOUT ∧ timerKey g.2 = k :=
      fun g hg' => hg g (List.mem_cons_of_mem _ hg')
    simp only at hf hlt hkey
    have hrun : runEvents s (burstEvents ref ((events, item) :: rest))
        = runEvents (AutosaveService.saveAutosave (runEvents s events) ref item)
            (burstEvents ref rest) := by
      simp only [burstEvents]
      rw [runEvents_append, runEvents_cons]
      rfl
    rw [hrun]
    obtain ⟨f1, _, f3, f4⟩ := foreign_events_keep_timer k _ events hf s hs hp
      (by simp only; omega)
    have hp2 := pendingFor_saveAutosave_self (runEvents s events) ref item f1
    rw [hkey, ← now_saveAutosave (runEvents s events) ref item] at hp2
    obtain ⟨i1, i2, i3, i4⟩ := ih hrest
      (AutosaveService.saveAutosave (runEvents s events) ref item)
      (consistent_saveAutosave _ ref item f1) _ hp2
    refine ⟨i1, i2, ?_, ?_⟩
    · rw [i3, upsertsFor_saveAutosave, f3]
    · rw [i4, now_saveAutosave, f4]
      simp only [burstElapsed]
      omega

theorem debounce_from_consistent (s : AutosaveState) (hs : s.Consistent) (ref : Nat)
    (item : Item) (gaps : List (List Event × Item)) (pre : List Event) (dt : Nat)
    (current : Nat → Item)
    (hg : ∀ g ∈ gaps, (∀ e ∈ g.1, e.foreignTo (timerKey item) = true)
      ∧ elapsedOf g.1 < AUTOSAVE_TIMEOUT ∧ timerKey g.2 = timerKey item)
    (hpre : ∀ e ∈ pre, e.foreignTo (timerKey item) = true)
    (hlt : elapsedOf pre < AUTOSAVE_TIMEOUT) (hdt : AUTOSAVE_TIMEOUT ≤ elapsedOf pre + dt) :
    upsertsFor (timerKey item)
        (runEvents s (Event.save ref item :: burstEvents ref gaps
          ++ (pre ++ [Event.advance dt current])))
      = upsertsFor (timerKey item) s
        ++ [⟨s.now + burstElapsed gaps + AUTOSAVE_TIMEOUT, timerKey item,
            Call.apiSave RESOURCE [] (autosaveDiff (current ref)) none⟩] := by
  have hp1 := pendingFor_saveAutosave_self s ref item hs
  rw [← now_saveAutosave s ref item] at hp1
  obtain ⟨b1, ⟨h1, b2⟩, b3, b4⟩ := burst_keeps_one_timer ref (timerKey item) gaps hg
    (AutosaveService.saveAutosave s ref item) (consistent_saveAutosave s ref item hs) _ hp1
  have hrun : runEvents s (Event.save ref item :: burstEvents ref gaps
        ++ (pre ++ [Event.advance dt current]))
      = advanceClock (runEvents (runEvents (AutosaveService.saveAutosave s ref item)
          (burstEvents ref gaps)) pre) dt current := by
    rw [List.cons_append, runEvents_cons, runEvents_append, runEvents_append]
    rfl
  rw [hrun]
  generalize runEvents (AutosaveService.saveAutosave s ref item) (burstEvents ref gaps) = s2
    at b1 b2 b3 b4 ⊢
  obtain ⟨f1, f2, f3, f4⟩ := foreign_events_keep_timer (timerKey item) _ pre hpre s2 b1 b2
    (by simp only; omega)
  rw [upsertsFor_advanceClock, f2, f3, b3, upsertsFor_saveAutosave]
  have hdue : s2.now + AUTOSAVE_TIMEOUT ≤ (runEvents s2 pre).now + dt := by
    rw [f4]
    omega
  simp only [List.filter_cons, hdue, decide_True, if_true, List.filter_nil, List.map_cons,
    List.map_nil, fireTimer]
  rw [b4, now_saveAutosave]

theorem getProp?_autosaveDiff (item : Item) (k : String) :
    getProp? (autosaveDiff item) k
      = if k ∈ keysOf CONTENT_FIELDS_DEFAULTS ∧ (getProp? item k).isSome = true
          then getProp? item k
          else if "_id" = k then some (readProp item "_id") else none := by
  unfold autosaveDiff
  rw [getProp?_extendItem]
  simp [getProp?]

/-! ## Unlock notifications -/

theorem onItemUnlock_of_match (session : Session) (scope : Scope) (s : AutosaveState)
    (data : UnlockNotice)
    (h : ((readProp scope.item "_id").strictEq data.item && !scope.closing
      && !data.lock_session.strictEqStr session.sessionId) = true) :
    AuthoringDirective.onItemUnlock session scope s data
      = (⟨scope.origItem,
            setProp (setProp (setProp (setProp
              (setProp (setProp (setProp scope.item "lock_session" null) "lock_user" null)
                "_locked" (bool false))
              "_editable" (bool false)) "_locked" (bool false)) "lock_session" null)
              "lock_user" null,
            scope.dirty, bool false, scope.closing⟩,
          AutosaveService.stopAutosave s scope.item, [Call.confirmUnlock data.user]) := by
  unfold AuthoringDirective.onItemUnlock
  rw [if_pos h]
  rfl

theorem onItemUnlock_of_mismatch (session : Session) (scope : Scope) (s : AutosaveState)
    (data : UnlockNotice)
    (h : ¬ ((readProp scope.item "_id").strictEq data.item && !scope.closing
      && !data.lock_session.strictEqStr session.sessionId) = true) :
    AuthoringDirective.onItemUnlock session scope s data = (scope, s, []) := by
  unfold AuthoringDirective.onItemUnlock
  rw [if_neg h]

/-! ## Claims -/

/-- C1 (as stated, refuted): the item `{lock_user: "u1"}` has a lock holder whose user id
is the current user id and its `lock_session` is absent, hence not the current session id
`"s1"`; the claim asks for `isLocked` to be true there, and the code answers false. -/
theorem C1_isLocked_absent_session_counterexample :
    (readProp [("lock_user", JsVal.str "u1")] "lock_user").truthy = true
      ∧ LockService.getLockedUserId [("lock_user", JsVal.str "u1")] = JsVal.str "u1"
      ∧ readProp [("lock_user", JsVal.str "u1")] "lock_session" = JsVal.undefined
      ∧ (readProp [("lock_user", JsVal.str "u1")] "lock_session").strictEqStr "s1" = false
      ∧ LockService.isLocked ⟨"u1", "s1"⟩ [("lock_user", JsVal.str "u1")] = false := by
  refine ⟨by rfl, by rfl, by rfl, by rfl, by rfl⟩

/-- C1 (amended): `isLocked(item)` is true exactly when the item has a lock holder
(`lock_user` is truthy) and either the holder's user id is not the current user id, or
`lock_session` is set (truthy) and is not the current session id. So it is false without
a holder, false for the current user in the current session, and also false for the
current user when `lock_session` is absent or null. -/
theorem C1_isLocked_iff (session : Session) (item : Item) :
    LockService.isLocked session item = true ↔
      (readProp item "lock_user").truthy = true
        ∧ (LockService.getLockedUserId item ≠ JsVal.str session.identityId
          ∨ ((readProp item "lock_session").truthy = true
            ∧ readProp item "lock_session" ≠ JsVal.str session.sessionId)) :=
  isLocked_iff session item

/-- C2: the diff that `AuthoringService.save(origItem, item)` hands to the record store
(as the third argument of `api.save('archive', item, diff)`) holds a key exactly when the
key is a `CONTENT_FIELDS_DEFAULTS` key, is present in `item`, and `item[k]` is not deeply
equal (`_.isEqual`) to `origItem[k]`; such a key maps to `item[k]`. The diff is empty when
every whitelisted field present in `item` is deeply equal to the baseline's, and it never
holds `_id`. -/
theorem C2_save_diff_is_changed_whitelisted_fields (session : Session) (orig item : Item)
    (store : Promise Item) :
    (AuthoringService.save session (some orig) (some item) store).trace
        = [Call.autosaveStop item,
           Call.apiSave "archive" item (saveDiff (some orig) item) none]
      ∧ (∀ k, getProp? (saveDiff (some orig) item) k
          = if k ∈ keysOf CONTENT_FIELDS_DEFAULTS ∧ (getProp? item k).isSome = true
                ∧ (readProp item k).isEqual (readProp orig k) = false
              then getProp? item k else none)
      ∧ ((∀ k, k ∈ keysOf CONTENT_FIELDS_DEFAULTS → (getProp? item k).isSome = true →
            (readProp item k).isEqual (readProp orig k) = true) →
          saveDiff (some orig) item = [])
      ∧ getProp? (saveDiff (some orig) item) "_id" = none := by
  refine ⟨?_, getProp?_saveDiff orig item, ?_, ?_⟩
  · unfold AuthoringService.save
    cases store <;> rfl
  · intro h
    apply eq_nil_of_getProp?_none
    intro k
    rw [getProp?_saveDiff]
    by_cases hk : k ∈ keysOf CONTENT_FIELDS_DEFAULTS ∧ (getProp? item k).isSome = true
    · have := h k hk.1 hk.2
      simp [this]
    · have h' : ¬ (k ∈ keysOf CONTENT_FIELDS_DEFAULTS ∧ (getProp? item k).isSome = true
          ∧ (readProp item k).isEqual (readProp orig k) = false) :=
        fun hh => hk ⟨hh.1, hh.2.1⟩
      rw [if_neg h']
  · rw [getProp?_saveDiff]
    have hid : ¬ "_id" ∈ keysOf CONTENT_FIELDS_DEFAULTS := by decide
    simp [hid]

/-- Witness for C2: a working copy whose headline and subject list are deeply equal to the
baseline's (the subject list is a separately built, structurally equal list) saves the
empty diff. -/
theorem C2_save_diff_witness :
    saveDiff
        (some [("_id", str "a1"), ("headline", str "h"),
               ("subject", arr [obj [("qcode", str "01"), ("name", str "arts")]])])
        [("_id", str "a1"), ("subject", arr [obj [("name", str "arts"), ("qcode", str "01")]]),
         ("headline", str "h")]
      = [] :=
  (C2_save_diff_is_changed_whitelisted_fields ⟨"u1", "s1"⟩
    [("_id", str "a1"), ("headline", str "h"),
     ("subject", arr [obj [("qcode", str "01"), ("name", str "arts")]])]
    [("_id", str "a1"), ("subject", arr [obj [("name", str "arts"), ("qcode", str "01")]]),
     ("headline", str "h")]
    Promise.pending).2.2.1 (by decide)

/-- C3: after `extendItem(dest, src)` every key `k` reads as follows: `src[k]` when `k` is
a whitelisted content field present in `src`, and otherwise exactly what `dest` held
(the same value, or still absent). -/
theorem C3_extendItem_frame (dest src : Item) (k : String) :
    getProp? (extendItem dest src) k
      = if k ∈ keysOf CONTENT_FIELDS_DEFAULTS ∧ (getProp? src k).isSome = true
          then getProp? src k else getProp? dest k :=
  getProp?_extendItem dest src k

/-- C4 (as stated, refuted): with `dest = {urgency: 0}` and `src = {}` the whitelisted
field `urgency` has a value in `dest` (the falsy `0`) and none in `src`; the claim asks for
the default `null` afterwards, and `dest.urgency` is still `0`. -/
theorem C4_forcedExtend_presence_counterexample :
    getProp? CONTENT_FIELDS_DEFAULTS "urgency" = some null
      ∧ getProp? [("urgency", num 0)] "urgency" = some (num 0)
      ∧ getProp? ([] : Item) "urgency" = none
      ∧ getProp? (forcedExtend [("urgency", num 0)] []) "urgency" = some (num 0) := by
  refine ⟨by rfl, by rfl, by rfl, by rfl⟩

/-- C4 (amended): for a whitelisted field `k` with default `v` for which `src` has either
no value or a truthy value, after `forcedExtend(dest, src)`: `dest[k]` is `src[k]` when
`src` has a value; when `src` has none, `dest[k]` is the default `v` if `dest[k]` was
truthy and is left as it was (absent, or the same falsy value) if `dest[k]` was absent or
falsy. Nothing is said here about a `src` that holds a falsy value for `k`. -/
theorem C4_forcedExtend_rule_for_truthy_or_absent_src (dest src : Item) (k : String)
    (v : JsVal) (hk : getProp? CONTENT_FIELDS_DEFAULTS k = some v)
    (hsrc : getProp? src k = none ∨ (readProp src k).truthy = true) :
    getProp? (forcedExtend dest src) k
      = if (getProp? src k).isSome = true then getProp? src k
        else if (readProp dest k).truthy = true then some v
        else getProp? dest k := by
  rw [getProp?_forcedExtend, hk]
  cases hs : getProp? src k with
  | none =>
    have hr : readProp src k = JsVal.undefined := by simp [readProp, hs]
    rw [hr]
    simp [JsVal.truthy]
  | some x =>
    have hr : readProp src k = x := by simp [readProp, hs]
    have ht : x.truthy = true := by
      rcases hsrc with h | h
      · rw [hs] at h
        cases h
      · rw [hr] at h
        exact h
    rw [hr]
    simp [ht]

/-- Witness for C4: with `dest = {headline: "old", byline: "me", urgency: 0}` and
`src = {byline: "you"}`, the truthy headline is reset to its default, the byline is taken
from `src`, and the falsy urgency is left as it was. -/
theorem C4_forcedExtend_rule_for_truthy_or_absent_src_witness :
    getProp? (forcedExtend
        [("headline", str "old"), ("byline", str "me"), ("urgency", num 0)]
        [("byline", str "you")]) "headline" = some (str "")
      ∧ getProp? (forcedExtend
        [("headline", str "old"), ("byline", str "me"), ("urgency", num 0)]
        [("byline", str "you")]) "byline" = some (str "you")
      ∧ getProp? (forcedExtend
        [("headline", str "old"), ("byline", str "me"), ("urgency", num 0)]
        [("byline", str "you")]) "urgency" = some (num 0) :=
  ⟨(C4_forcedExtend_rule_for_truthy_or_absent_src
      [("headline", str "old"), ("byline", str "me"), ("urgency", num 0)]
      [("byline", str "you")] "headline" (str "") (by rfl) (Or.inl (by rfl))).trans (by rfl),
   (C4_forcedExtend_rule_for_truthy_or_absent_src
      [("headline", str "old"), ("byline", str "me"), ("urgency", num 0)]
      [("byline", str "you")] "byline" null (by rfl) (Or.inr (by rfl))).trans (by rfl),
   (C4_forcedExtend_rule_for_truthy_or_absent_src
      [("headline", str "old"), ("byline", str "me"), ("urgency", num 0)]
      [("byline", str "you")] "urgency" null (by rfl) (Or.inl (by rfl))).trans (by rfl)⟩

/-- C5: for a whitelisted field `k` with default `v`, if `dest[k]` is present and truthy
and `src` has no value for `k`, then after `forcedExtend(dest, src)` `dest[k]` is `v`; if
`k` is absent from both, it is still absent; and a key outside the whitelist reads in
`dest` exactly as before (not added, removed or changed). -/
theorem C5_forcedExtend_defaults_and_frame (dest src : Item) (k : String) :
    (∀ v, getProp? CONTENT_FIELDS_DEFAULTS k = some v → (readProp dest k).truthy = true →
        getProp? src k = none → getProp? (forcedExtend dest src) k = some v)
      ∧ (k ∈ keysOf CONTENT_FIELDS_DEFAULTS → getProp? dest k = none → getProp? src k = none →
        getProp? (forcedExtend dest src) k = none)
      ∧ (k ∉ keysOf CONTENT_FIELDS_DEFAULTS →
        getProp? (forcedExtend dest src) k = getProp? dest k) := by
  refine ⟨?_, ?_, ?_⟩
  · intro v hk hd hs
    have hs' : readProp src k = JsVal.undefined := by simp [readProp, hs]
    rw [getProp?_forcedExtend, hk, hs']
    simp only [hd, if_true]
    simp [JsVal.truthy]
  · intro hk hd hs
    rw [getProp?_forcedExtend]
    cases hc : getProp? CONTENT_FIELDS_DEFAULTS k with
    | none => simpa using hd
    | some v =>
      have hs' : readProp src k = JsVal.undefined := by simp [readProp, hs]
      have hd' : readProp dest k = JsVal.undefined := by simp [readProp, hd]
      rw [hs', hd']
      simp [hd, JsVal.truthy]
  · intro hk
    rw [getProp?_forcedExtend]
    have hnone : getProp? CONTENT_FIELDS_DEFAULTS k = none := by
      cases hc : getProp? CONTENT_FIELDS_DEFAULTS k with
      | none => rfl
      | some v => exact absurd ((mem_keysOf_iff _ k).2 (by simp [hc])) hk
    rw [hnone]

/-- Witness for C5: a truthy subject list in `dest` with no subject in `src` is reset to
the default empty list, the absent field `ednote` stays absent, and `_id` is untouched. -/
theorem C5_forcedExtend_defaults_and_frame_witness :
    getProp? (forcedExtend [("_id", str "a1"), ("subject", arr [str "x"])]
        [("headline", str "v1")]) "subject" = some (arr [])
      ∧ getProp? (forcedExtend [("_id", str "a1"), ("subject", arr [str "x"])]
        [("headline", str "v1")]) "ednote" = none
      ∧ getProp? (forcedExtend [("_id", str "a1"), ("subject", arr [str "x"])]
        [("headline", str "v1")]) "_id" = some (str "a1") :=
  ⟨(C5_forcedExtend_defaults_and_frame [("_id", str "a1"), ("subject", arr [str "x"])]
      [("headline", str "v1")] "subject").1 (arr []) (by rfl) (by rfl) (by rfl),
   (C5_forcedExtend_defaults_and_frame [("_id", str "a1"), ("subject", arr [str "x"])]
      [("headline", str "v1")] "ednote").2.1 (by decide) (by rfl) (by rfl),
   (C5_forcedExtend_defaults_and_frame [("_id", str "a1"), ("subject", arr [str "x"])]
      [("headline", str "v1")] "_id").2.2 (by decide)⟩

/-- C6 (the code at the failing input): for an editable item with `isDirty = true` and a
confirmed save-and-publish prompt, `publishConfirmation` shows the prompt, sends no update
of the canonical record to the store and returns a promise rejected with the `TypeError`
thrown by `save(diff)`, whatever the store would have answered. -/
theorem C6_publishConfirmation_confirmed_sends_no_save :
    AuthoringService.isEditable ⟨"u1", "s1"⟩
        [("_id", str "a1"), ("lock_user", str "u1"), ("lock_session", str "s1"),
         ("headline", str "edited")] = true
      ∧ AuthoringService.publishConfirmation ⟨"u1", "s1"⟩
          [("_id", str "a1"), ("lock_user", str "u1"), ("lock_session", str "s1"),
           ("headline", str "edited")]
          true (Promise.resolved undefined)
          (Promise.resolved [("_id", str "a1"), ("headline", str "edited")])
        = ⟨[Call.confirmPublish], Promise.rejected typeError⟩
      ∧ (AuthoringService.publishConfirmation ⟨"u1", "s1"⟩
          [("_id", str "a1"), ("lock_user", str "u1"), ("lock_session", str "s1"),
           ("headline", str "edited")]
          true (Promise.resolved undefined)
          (Promise.resolved [("_id", str "a1"), ("headline", str "edited")])).trace.any
            Call.isArchiveSave = false := by
  refine ⟨by rfl, by rfl, by rfl⟩

/-- C7: `LockService.lock(item, force)` sends the lock-acquisition request exactly when
`force` is set or the item has no lock holder and `_editable` is set. Otherwise it makes
no call at all and resolves with the item, whose `_locked` is `isLocked(item)` and whose
other fields are unchanged. -/
theorem C7_lock_requests_iff_forced_or_free_and_editable (session : Session) (item : Item)
    (force : JsVal) (store : Promise Item) :
    (LockService.lock session item force store).trace
        = (if force.truthy = true ∨ ((readProp item "lock_user").truthy = false
              ∧ (readProp item "_editable").truthy = true)
            then [lockRequest item] else [])
      ∧ (¬ (force.truthy = true ∨ ((readProp item "lock_user").truthy = false
              ∧ (readProp item "_editable").truthy = true)) →
          (LockService.lock session item force store).trace = []
            ∧ ∃ item1, (LockService.lock session item force store).promise
                  = Promise.resolved item1
                ∧ getProp? item1 "_locked" = some (bool (LockService.isLocked session item))
                ∧ ∀ k, k ≠ "_locked" → getProp? item1 k = getProp? item k) := by
  unfold LockService.lock
  by_cases h : force.truthy = true ∨ ((readProp item "lock_user").truthy = false
      ∧ (readProp item "_editable").truthy = true)
  · have hc : ((!(readProp item "lock_user").truthy && (readProp item "_editable").truthy)
        || force.truthy) = true := by
      rcases h with h | h
      · simp [h]
      · simp [h.1, h.2]
    rw [if_pos hc, if_pos h]
    refine ⟨?_, fun hn => absurd h hn⟩
    cases store <;> rfl
  · have hc : ¬ ((!(readProp item "lock_user").truthy && (readProp item "_editable").truthy)
        || force.truthy) = true := by
      intro hc
      apply h
      simp only [Bool.or_eq_true, Bool.and_eq_true, Bool.not_eq_true'] at hc
      rcases hc with hc | hc
      · exact Or.inr hc
      · exact Or.inl hc
    rw [if_neg hc, if_neg h]
    refine ⟨rfl, fun _ => ⟨rfl, _, rfl, ?_, ?_⟩⟩
    · simp [getProp?_setProp]
    · intro k hk
      have hk' : ¬ "_locked" = k := fun e => hk e.symm
      simp [getProp?_setProp, hk']

/-- Witness for C7: an item opened read-only (`_editable = false`) and locked with no
`force` argument. -/
theorem C7_lock_requests_witness :
    (LockService.lock ⟨"u1", "s1"⟩ [("_id", str "a1"), ("_editable", bool false)] undefined
        Promise.pending).trace = []
      ∧ ∃ item1, (LockService.lock ⟨"u1", "s1"⟩ [("_id", str "a1"), ("_editable", bool false)]
            undefined Promise.pending).promise = Promise.resolved item1
          ∧ getProp? item1 "_locked" = some (bool (LockService.isLocked ⟨"u1", "s1"⟩
              [("_id", str "a1"), ("_editable", bool false)]))
          ∧ ∀ k, k ≠ "_locked" →
              getProp? item1 k = getProp? [("_id", str "a1"), ("_editable", bool false)] k :=
  (C7_lock_requests_iff_forced_or_free_and_editable ⟨"u1", "s1"⟩
    [("_id", str "a1"), ("_editable", bool false)] undefined Promise.pending).2 (by decide)

/-- C8: when `LockService.lock` attempts acquisition, a successful store request resolves
with the item carrying `_locked = false`, `lock_user` = the current user id and
`lock_session` = the current session id, whatever the returned payload holds, so that
`isLocked` is false on it; a failed store request still resolves, with the item carrying
`_locked = true` and every other field unchanged. -/
theorem C8_lock_acquisition_outcomes (session : Session) (item : Item) (force : JsVal)
    (h : force.truthy = true ∨ ((readProp item "lock_user").truthy = false
      ∧ (readProp item "_editable").truthy = true)) :
    (∀ payload : Item, ∃ item1,
        (LockService.lock session item force (Promise.resolved payload)).promise
            = Promise.resolved item1
          ∧ getProp? item1 "_locked" = some (bool false)
          ∧ getProp? item1 "lock_user" = some (str session.identityId)
          ∧ getProp? item1 "lock_session" = some (str session.sessionId)
          ∧ LockService.isLocked session item1 = false)
      ∧ (∀ err : JsVal, ∃ item1,
        (LockService.lock session item force (Promise.rejected err)).promise
            = Promise.resolved item1
          ∧ getProp? item1 "_locked" = some (bool true)
          ∧ ∀ k, k ≠ "_locked" → getProp? item1 k = getProp? item k) := by
  refine ⟨fun payload => ⟨_, lock_attempt_resolved session item force payload h, ?_, ?_, ?_, ?_⟩,
    fun err => ⟨_, lock_attempt_rejected session item force err h, ?_, ?_⟩⟩
  · simp [getProp?_setProp]
  · simp [getProp?_setProp]
  · simp [getProp?_setProp]
  · apply isLocked_of_own_session
    · simp [readProp, getProp?_setProp]
    · simp [readProp, getProp?_setProp]
  · simp [getProp?_setProp]
  · intro k hk
    have hk' : ¬ "_locked" = k := fun e => hk e.symm
    simp [getProp?_setProp, hk']

/-- Witness for C8: a forced lock of an item held by another user, where the returned
payload itself names another holder and `_locked = true`. -/
theorem C8_lock_acquisition_outcomes_witness :
    ∃ item1,
      (LockService.lock ⟨"u1", "s1"⟩ [("_id", str "a1"), ("lock_user", str "u2")] (bool true)
          (Promise.resolved [("lock_user", str "u2"), ("lock_session", str "s9"),
            ("_locked", bool true)])).promise = Promise.resolved item1
        ∧ getProp? item1 "_locked" = some (bool false)
        ∧ getProp? item1 "lock_user" = some (str "u1")
        ∧ getProp? item1 "lock_session" = some (str "s1")
        ∧ LockService.isLocked ⟨"u1", "s1"⟩ item1 = false :=
  (C8_lock_acquisition_outcomes ⟨"u1", "s1"⟩ [("_id", str "a1"), ("lock_user", str "u2")]
    (bool true) (Or.inl (by rfl))).1
    [("lock_user", str "u2"), ("lock_session", str "s9"), ("_locked", bool true)]

/-- C9: `AuthoringService.close(diff, orig, isDirty)` does nothing unless the item is
editable for this session. For an item with no lock holder, or held by another user, or
held by the current user under a `lock_session` that is set and is not the current session
id, `isEditable` is false and close issues no call at all (no prompt, no save, no unlock
request) and resolves, for either value of `isDirty` and whatever the prompt or the store
would answer. -/
theorem C9_close_noop_unless_editable (session : Session) (diff : Item)
    (h : (readProp diff "lock_user").truthy = false
      ∨ LockService.getLockedUserId diff ≠ str session.identityId
      ∨ (LockService.getLockedUserId diff = str session.identityId
          ∧ (readProp diff "lock_session").truthy = true
          ∧ readProp diff "lock_session" ≠ str session.sessionId)) :
    AuthoringService.isEditable session diff = false
      ∧ ∀ (orig : Option Item) (isDirty : Bool) (answer : Promise JsVal)
          (saveStore unlockStore : Promise Item),
          AuthoringService.close session diff orig isDirty answer saveStore unlockStore
            = ⟨[], Promise.resolved undefined⟩ := by
  have he : AuthoringService.isEditable session diff = false := by
    unfold AuthoringService.isEditable
    cases hu : (readProp diff "lock_user").truthy with
    | false => rfl
    | true =>
      have hl : LockService.isLocked session diff = true := by
        rw [isLocked_iff]
        refine ⟨hu, ?_⟩
        rcases h with h | h | h
        · rw [hu] at h
          exact absurd h (by decide)
        · exact Or.inl h
        · exact Or.inr h.2
      simp [hl]
  exact ⟨he, fun orig isDirty answer saveStore unlockStore =>
    close_of_not_editable session diff orig isDirty answer saveStore unlockStore he⟩

/-- Witness for C9: an item held by the current user in another session. -/
theorem C9_close_noop_unless_editable_witness :
    AuthoringService.isEditable ⟨"u1", "s1"⟩
        [("_id", str "a1"), ("lock_user", str "u1"), ("lock_session", str "s2")] = false
      ∧ ∀ (orig : Option Item) (isDirty : Bool) (answer : Promise JsVal)
          (saveStore unlockStore : Promise Item),
          AuthoringService.close ⟨"u1", "s1"⟩
              [("_id", str "a1"), ("lock_user", str "u1"), ("lock_session", str "s2")]
              orig isDirty answer saveStore unlockStore
            = ⟨[], Promise.resolved undefined⟩ :=
  C9_close_noop_unless_editable ⟨"u1", "s1"⟩
    [("_id", str "a1"), ("lock_user", str "u1"), ("lock_session", str "s2")]
    (Or.inr (Or.inr ⟨by rfl, by rfl, by simp [readProp, getProp?]⟩))

/-- C10: for an editable item, `close` with `isDirty = true` and a declined confirmation
shows the prompt and then sends the unlock request for the item, and nothing else: no
save, the unlock request exactly once and last. With `isDirty = false` it sends the
unlock request, exactly once, with no prompt and no save. -/
theorem C10_close_always_unlocks_when_editable (session : Session) (diff : Item)
    (orig : Option Item) (reason : JsVal) (prompt : Promise JsVal)
    (saveStore unlockStore : Promise Item)
    (h : AuthoringService.isEditable session diff = true) :
    ((AuthoringService.close session diff orig true (Promise.rejected reason) saveStore
          unlockStore).trace = [Call.confirm, unlockRequest diff]
        ∧ (AuthoringService.close session diff orig true (Promise.rejected reason) saveStore
          unlockStore).trace.any Call.isArchiveSave = false
        ∧ (AuthoringService.close session diff orig true (Promise.rejected reason) saveStore
          unlockStore).trace.countP Call.isUnlockRequest = 1
        ∧ (AuthoringService.close session diff orig true (Promise.rejected reason) saveStore
          unlockStore).trace.getLast? = some (unlockRequest diff))
      ∧ ((AuthoringService.close session diff orig false prompt saveStore
          unlockStore).trace = [unlockRequest diff]
        ∧ (AuthoringService.close session diff orig false prompt saveStore
          unlockStore).trace.any Call.isPrompt = false
        ∧ (AuthoringService.close session diff orig false prompt saveStore
          unlockStore).trace.any Call.isArchiveSave = false
        ∧ (AuthoringService.close session diff orig false prompt saveStore
          unlockStore).trace.countP Call.isUnlockRequest = 1) := by
  rw [close_declined session diff orig reason saveStore unlockStore h,
    close_clean session diff orig prompt saveStore unlockStore h]
  simp [unlock_trace, unlockRequest, Call.isArchiveSave, Call.isUnlockRequest, Call.isPrompt]

/-- Witness for C10: an item held by the current user in the current session. -/
theorem C10_close_always_unlocks_when_editable_witness :
    (AuthoringService.close ⟨"u1", "s1"⟩
        [("_id", str "a1"), ("lock_user", str "u1"), ("lock_session", str "s1")]
        none true (Promise.rejected undefined) Promise.pending Promise.pending).trace
      = [Call.confirm,
         unlockRequest [("_id", str "a1"), ("lock_user", str "u1"), ("lock_session", str "s1")]] :=
  (C10_close_always_unlocks_when_editable ⟨"u1", "s1"⟩
    [("_id", str "a1"), ("lock_user", str "u1"), ("lock_session", str "s1")]
    none undefined Promise.pending Promise.pending Promise.pending (by rfl)).1.1

/-- C11: for an editable item with `isDirty = true`, when the user answers the prompt
with Cancel the close stops at the prompt: no save is performed, no unlock request is
sent, and the returned promise never settles, so it does not resolve. -/
theorem C11_close_cancel_aborts (session : Session) (diff : Item) (orig : Option Item)
    (saveStore unlockStore : Promise Item)
    (h : AuthoringService.isEditable session diff = true) :
    (AuthoringService.close session diff orig true (modalConfirm Answer.cancel) saveStore
        unlockStore).trace = [Call.confirm]
      ∧ (AuthoringService.close session diff orig true (modalConfirm Answer.cancel) saveStore
        unlockStore).trace.any Call.isArchiveSave = false
      ∧ (AuthoringService.close session diff orig true (modalConfirm Answer.cancel) saveStore
        unlockStore).trace.any Call.isUnlockRequest = false
      ∧ (AuthoringService.close session diff orig true (modalConfirm Answer.cancel) saveStore
        unlockStore).promise = Promise.pending
      ∧ ∀ v, (AuthoringService.close session diff orig true (modalConfirm Answer.cancel)
        saveStore unlockStore).promise ≠ Promise.resolved v := by
  have hc : AuthoringService.close session diff orig true (modalConfirm Answer.cancel)
      saveStore unlockStore = ⟨[Call.confirm], Promise.pending⟩ := by
    unfold AuthoringService.close modalConfirm
    simp [h]
  rw [hc]
  refine ⟨rfl, by simp [Call.isArchiveSave], by simp [Call.isUnlockRequest], rfl, ?_⟩
  intro v hv
  cases hv

/-- Witness for C11: an item held by the current user in the current session. -/
theorem C11_close_cancel_aborts_witness :
    (AuthoringService.close ⟨"u1", "s1"⟩
        [("_id", str "a1"), ("lock_user", str "u1"), ("lock_session", str "s1")]
        none true (modalConfirm Answer.cancel) (Promise.resolved []) (Promise.resolved [])).trace
      = [Call.confirm] :=
  (C11_close_cancel_aborts ⟨"u1", "s1"⟩
    [("_id", str "a1"), ("lock_user", str "u1"), ("lock_session", str "s1")]
    none (Promise.resolved []) (Promise.resolved []) (by rfl)).1

/-- C12 (the code at the failing input): when the store rejects the publish update,
`AuthoringService.publish` sends no unlock request and resolves with `undefined`, and the
controller's `publishItem` raises no notification at all. -/
theorem C12_publish_failure_is_swallowed :
    AuthoringService.publish [("_id", str "a1"), ("headline", str "h")]
        (Promise.rejected (obj [("status", num 400)])) (Promise.resolved [])
      = ⟨[Call.apiUpdate "archive_publish" [("_id", str "a1"), ("headline", str "h")] []],
          Promise.resolved undefined⟩
      ∧ (AuthoringDirective.publishItem
          ⟨[("_id", str "a1")], [("_id", str "a1"), ("headline", str "h")], false,
            bool true, false⟩
          [("_id", str "a1"), ("headline", str "h")]
          (Promise.rejected (obj [("status", num 400)])) (Promise.resolved [])).2
        = [Call.apiUpdate "archive_publish" [("_id", str "a1"), ("headline", str "h")] []]
      ∧ (AuthoringDirective.publishItem
          ⟨[("_id", str "a1")], [("_id", str "a1"), ("headline", str "h")], false,
            bool true, false⟩
          [("_id", str "a1"), ("headline", str "h")]
          (Promise.rejected (obj [("status", num 400)])) (Promise.resolved [])).2.any
            Call.isErrorNotification = false := by
  refine ⟨by rfl, by rfl, by rfl⟩

/-- C13: autosave debounce. From any state that the service can reach, take `n ≥ 1`
calls of `save` on one item object (one item id), each made less than 3000 ms after the
previous one, with only the clock advancing or other item ids being saved, stopped or
dropped in between. Once 3000 ms have passed since the last call, exactly one upsert of
the Autosave Record has been issued for that id, timed 3000 ms after the last call, and
its payload is built from the item as it is when the timer fires: its `_id` plus its
whitelisted content fields. In every reachable state at most one timer is pending per
item id, and `stop` and `save` of one id leave the pending timer of any other id as it
is. Item ids are told apart as the property keys of `timeouts`. -/
theorem C13_autosave_debounce (history : List Event) (ref : Nat) (item : Item)
    (gaps : List (List Event × Item)) (pre : List Event) (dt : Nat) (current : Nat → Item)
    (hg : ∀ g ∈ gaps, (∀ e ∈ g.1, e.foreignTo (timerKey item) = true)
      ∧ elapsedOf g.1 < AUTOSAVE_TIMEOUT ∧ timerKey g.2 = timerKey item)
    (hpre : ∀ e ∈ pre, e.foreignTo (timerKey item) = true)
    (hlt : elapsedOf pre < AUTOSAVE_TIMEOUT) (hdt : AUTOSAVE_TIMEOUT ≤ elapsedOf pre + dt) :
    upsertsFor (timerKey item)
        (runEvents (runEvents AutosaveState.start history)
          (Event.save ref item :: burstEvents ref gaps ++ (pre ++ [Event.advance dt current])))
      = upsertsFor (timerKey item) (runEvents AutosaveState.start history)
        ++ [⟨(runEvents AutosaveState.start history).now + burstElapsed gaps
              + AUTOSAVE_TIMEOUT,
            timerKey item, Call.apiSave RESOURCE [] (autosaveDiff (current ref)) none⟩]
      ∧ (∀ k, getProp? (autosaveDiff (current ref)) k
          = if k ∈ keysOf CONTENT_FIELDS_DEFAULTS ∧ (getProp? (current ref) k).isSome = true
              then getProp? (current ref) k
              else if "_id" = k then some (readProp (current ref) "_id") else none)
      ∧ (∀ k, (pendingFor k (runEvents AutosaveState.start history)).length ≤ 1)
      ∧ (∀ (other : Item) (r : Nat) (k : String), k ≠ timerKey other →
          pendingFor k (AutosaveService.stopAutosave
              (runEvents AutosaveState.start history) other)
            = pendingFor k (runEvents AutosaveState.start history)
          ∧ pendingFor k (AutosaveService.saveAutosave
              (runEvents AutosaveState.start history) r other)
            = pendingFor k (runEvents AutosaveState.start history)) := by
  have hs := consistent_runEvents history AutosaveState.start consistent_start
  refine ⟨debounce_from_consistent _ hs ref item gaps pre dt current hg hpre hlt hdt,
    getProp?_autosaveDiff (current ref), hs.2.2.2, ?_⟩
  intro other r k hk
  exact ⟨pendingFor_stopAutosave_other _ other k hs hk,
    pendingFor_saveAutosave_other _ r other k hs hk⟩

/-- Witness for C13: three calls of `save` on item `a1`, 1000 ms and 2000 ms apart, with
another item `b2` saved in between; 3000 ms after the third call one upsert has been
issued, at time 6000, carrying the headline of the last edit. -/
theorem C13_autosave_debounce_witness :
    upsertsFor (timerKey [("_id", str "a1"), ("headline", str "h1")])
        (runEvents (runEvents AutosaveState.start [])
          (Event.save 0 [("_id", str "a1"), ("headline", str "h1")]
            :: burstEvents 0
              [([Event.advance 1000 (fun _ => []), Event.save 1 [("_id", str "b2")]],
                  [("_id", str "a1"), ("headline", str "h2")]),
               ([Event.advance 2000 (fun _ => [])],
                  [("_id", str "a1"), ("headline", str "h3")])]
            ++ ([] ++ [Event.advance 3000
                  (fun _ => [("_id", str "a1"), ("headline", str "h3")])])))
      = upsertsFor (timerKey [("_id", str "a1"), ("headline", str "h1")])
          (runEvents AutosaveState.start [])
        ++ [⟨(runEvents AutosaveState.start []).now
              + burstElapsed
                [([Event.advance 1000 (fun _ => []), Event.save 1 [("_id", str "b2")]],
                    [("_id", str "a1"), ("headline", str "h2")]),
                 ([Event.advance 2000 (fun _ => [])],
                    [("_id", str "a1"), ("headline", str "h3")])]
              + AUTOSAVE_TIMEOUT,
            timerKey [("_id", str "a1"), ("headline", str "h1")],
            Call.apiSave RESOURCE []
              (autosaveDiff ((fun _ => [("_id", str "a1"), ("headline", str "h3")]) 0))
              none⟩] :=
  (C13_autosave_debounce [] 0 [("_id", str "a1"), ("headline", str "h1")]
    [([Event.advance 1000 (fun _ => []), Event.save 1 [("_id", str "b2")]],
        [("_id", str "a1"), ("headline", str "h2")]),
     ([Event.advance 2000 (fun _ => [])], [("_id", str "a1"), ("headline", str "h3")])]
    [] 3000 (fun _ => [("_id", str "a1"), ("headline", str "h3")])
    (by decide) (by decide) (by decide) (by decide)).1

/-- C14 (the code at the failing input): a failed save whose payload carries `_issues`
naming neither `unique_name` nor `validator exception` raises no error notification. -/
theorem C14_save_failure_with_other_issue_is_silent :
    AuthoringDirective.saveFailed
        (obj [("data", obj [("_issues", obj [("headline", obj [("required", num 1)])])])])
      = some []
      ∧ (AuthoringDirective.save ⟨"u1", "s1"⟩
          ⟨[("_id", str "a1"), ("headline", str "")],
            [("_id", str "a1"), ("headline", str "")], true, bool true, false⟩
          (Promise.rejected
            (obj [("data", obj [("_issues", obj [("headline", obj [("required", num 1)])])])]))
        ).2.trace.countP Call.isErrorNotification = 0 := by
  refine ⟨by rfl, by rfl⟩

/-- C15: `LockService.unlock(item)` resolves with the item carrying `_locked = true` when
the release request succeeds (whatever the payload holds; fields that the payload does not
name are unchanged) and when it fails (no other field changes), and it never rejects. -/
theorem C15_unlock_always_resolves_locked (item : Item) :
    (∀ payload : Item, ∃ item1,
        (LockService.unlock item (Promise.resolved payload)).promise = Promise.resolved item1
          ∧ getProp? item1 "_locked" = some (bool true)
          ∧ ∀ k, k ≠ "_locked" → getProp? payload k = none →
              getProp? item1 k = getProp? item k)
      ∧ (∀ err : JsVal, ∃ item1,
        (LockService.unlock item (Promise.rejected err)).promise = Promise.resolved item1
          ∧ getProp? item1 "_locked" = some (bool true)
          ∧ ∀ k, k ≠ "_locked" → getProp? item1 k = getProp? item k)
      ∧ (∀ (store : Promise Item) (reason : JsVal),
        (LockService.unlock item store).promise ≠ Promise.rejected reason) := by
  refine ⟨fun payload => ⟨_, unlock_resolved item payload, ?_, ?_⟩,
    fun err => ⟨_, unlock_rejected item err, ?_, ?_⟩, ?_⟩
  · simp [getProp?_setProp]
  · intro k hk hp
    have hk' : ¬ "_locked" = k := fun e => hk e.symm
    simp [getProp?_setProp, hk', getProp?_extend, hp]
  · simp [getProp?_setProp]
  · intro k hk
    have hk' : ¬ "_locked" = k := fun e => hk e.symm
    simp [getProp?_setProp, hk']
  · intro store reason
    unfold LockService.unlock
    cases store <;> simp

/-- Witness for C15: the release of an item succeeds with a payload that itself says
`_locked = false`. -/
theorem C15_unlock_always_resolves_locked_witness :
    ∃ item1,
      (LockService.unlock [("_id", str "a1"), ("lock_user", str "u1")]
          (Promise.resolved [("_locked", bool false), ("lock_user", null)])).promise
        = Promise.resolved item1
        ∧ getProp? item1 "_locked" = some (bool true)
        ∧ ∀ k, k ≠ "_locked" →
            getProp? [("_locked", bool false), ("lock_user", null)] k = none →
            getProp? item1 k = getProp? [("_id", str "a1"), ("lock_user", str "u1")] k :=
  (C15_unlock_always_resolves_locked [("_id", str "a1"), ("lock_user", str "u1")]).1
    [("_locked", bool false), ("lock_user", null)]

/-- C16: `AutosaveService.open(item)` never rejects. For an item flagged `_locked` or
`read_only` it issues no fetch and resolves with the item unchanged. Otherwise it issues
exactly one fetch of the Autosave Record under the item's `_id`; when the fetch succeeds
it resolves with the item carrying the fetched record as `_autosave` (other fields
unchanged), and when the fetch fails it resolves with the item unchanged. -/
theorem C16_autosave_open (item : Item) :
    (((readProp item "_locked").truthy = true ∨ (readProp item "read_only").truthy = true) →
        ∀ store, AutosaveService.openAutosave item store = ⟨[], Promise.resolved item⟩)
      ∧ (¬ ((readProp item "_locked").truthy = true ∨ (readProp item "read_only").truthy = true) →
        (∀ store, (AutosaveService.openAutosave item store).trace
            = [Call.apiFind RESOURCE (readProp item "_id")])
          ∧ (∀ record, ∃ item1,
              (AutosaveService.openAutosave item (Promise.resolved record)).promise
                  = Promise.resolved item1
                ∧ getProp? item1 "_autosave" = some record
                ∧ ∀ k, k ≠ "_autosave" → getProp? item1 k = getProp? item k)
          ∧ (∀ err, (AutosaveService.openAutosave item (Promise.rejected err)).promise
              = Promise.resolved item))
      ∧ (∀ store reason,
        (AutosaveService.openAutosave item store).promise ≠ Promise.rejected reason) := by
  refine ⟨?_, ?_, ?_⟩
  · intro h store
    unfold AutosaveService.openAutosave
    have hc : ((readProp item "_locked").truthy || (readProp item "read_only").truthy) = true := by
      rcases h with h | h <;> simp [h]
    rw [if_pos hc]
  · intro h
    have hc : ¬ ((readProp item "_locked").truthy || (readProp item "read_only").truthy) = true := by
      intro hc
      apply h
      simpa using hc
    refine ⟨?_, ?_, ?_⟩
    · intro store
      unfold AutosaveService.openAutosave
      rw [if_neg hc]
      cases store <;> rfl
    · intro record
      refine ⟨setProp item "_autosave" record, ?_, ?_, ?_⟩
      · unfold AutosaveService.openAutosave
        rw [if_neg hc]
      · simp [getProp?_setProp]
      · intro k hk
        have hk' : ¬ "_autosave" = k := fun e => hk e.symm
        simp [getProp?_setProp, hk']
    · intro err
      unfold AutosaveService.openAutosave
      rw [if_neg hc]
  · intro store reason
    unfold AutosaveService.openAutosave
    split
    · simp
    · cases store <;> simp

/-- Witness for C16: a read-only item is returned without a fetch, and an item that is
neither locked nor read-only gets the fetched record attached. -/
theorem C16_autosave_open_witness :
    AutosaveService.openAutosave [("_id", str "a1"), ("read_only", bool true)]
        (Promise.resolved (obj [("headline", str "draft")]))
      = ⟨[], Promise.resolved [("_id", str "a1"), ("read_only", bool true)]⟩
      ∧ ∃ item1,
        (AutosaveService.openAutosave [("_id", str "a1"), ("_locked", bool false)]
            (Promise.resolved (obj [("headline", str "draft")]))).promise
          = Promise.resolved item1
          ∧ getProp? item1 "_autosave" = some (obj [("headline", str "draft")])
          ∧ ∀ k, k ≠ "_autosave" →
              getProp? item1 k = getProp? [("_id", str "a1"), ("_locked", bool false)] k :=
  ⟨(C16_autosave_open [("_id", str "a1"), ("read_only", bool true)]).1
      (Or.inr (by rfl)) (Promise.resolved (obj [("headline", str "draft")])),
   ((C16_autosave_open [("_id", str "a1"), ("_locked", bool false)]).2.1
      (by decide)).2.1 (obj [("headline", str "draft")])⟩

/-- C17: an `item:unlock` notification whose item id is the open item's `_id`, arriving
while the session is not closing and naming another session, leaves the working copy with
`lock_user = null`, `lock_session = null`, `_locked = false` and `_editable = false` (its
other fields unchanged), sets the scope's editable flag to `false` and cancels the pending
autosave timer of the item. If one of the three conditions fails, the working copy, the
editable flag and the autosave service are unchanged and no call is issued. -/
theorem C17_unlock_notification (session : Session) (scope : Scope) (s : AutosaveState)
    (data : UnlockNotice) :
    (((readProp scope.item "_id").strictEq data.item = true ∧ scope.closing = false
          ∧ data.lock_session ≠ str session.sessionId) →
        getProp? (AuthoringDirective.onItemUnlock session scope s data).1.item "lock_user"
            = some null
          ∧ getProp? (AuthoringDirective.onItemUnlock session scope s data).1.item
              "lock_session" = some null
          ∧ getProp? (AuthoringDirective.onItemUnlock session scope s data).1.item "_locked"
              = some (bool false)
          ∧ getProp? (AuthoringDirective.onItemUnlock session scope s data).1.item "_editable"
              = some (bool false)
          ∧ (∀ k, k ≠ "lock_user" → k ≠ "lock_session" → k ≠ "_locked" → k ≠ "_editable" →
              getProp? (AuthoringDirective.onItemUnlock session scope s data).1.item k
                = getProp? scope.item k)
          ∧ (AuthoringDirective.onItemUnlock session scope s data).1.editable = bool false
          ∧ (s.Consistent →
              pendingFor (timerKey scope.item)
                (AuthoringDirective.onItemUnlock session scope s data).2.1 = []))
      ∧ (¬ ((readProp scope.item "_id").strictEq data.item = true ∧ scope.closing = false
          ∧ data.lock_session ≠ str session.sessionId) →
        AuthoringDirective.onItemUnlock session scope s data = (scope, s, [])) := by
  have hcond : ((readProp scope.item "_id").strictEq data.item && !scope.closing
        && !data.lock_session.strictEqStr session.sessionId) = true
      ↔ ((readProp scope.item "_id").strictEq data.item = true ∧ scope.closing = false
          ∧ data.lock_session ≠ str session.sessionId) := by
    simp only [Bool.and_eq_true, Bool.not_eq_true', ne_eq, ← strictEqStr_iff,
      Bool.not_eq_true, and_assoc]
  refine ⟨fun h => ?_, fun h => ?_⟩
  · rw [onItemUnlock_of_match session scope s data (hcond.2 h)]
    refine ⟨?_, ?_, ?_, ?_, ?_, rfl, ?_⟩
    · simp [getProp?_setProp]
    · simp [getProp?_setProp]
    · simp [getProp?_setProp]
    · simp [getProp?_setProp]
    · intro k h1 h2 h3 h4
      have e1 : ¬ "lock_user" = k := fun e => h1 e.symm
      have e2 : ¬ "lock_session" = k := fun e => h2 e.symm
      have e3 : ¬ "_locked" = k := fun e => h3 e.symm
      have e4 : ¬ "_editable" = k := fun e => h4 e.symm
      simp [getProp?_setProp, e1, e2, e3, e4]
    · intro hs
      exact pendingFor_stopAutosave_self s scope.item hs
  · exact onItemUnlock_of_mismatch session scope s data (fun hc => h (hcond.1 hc))

/-- Witness for C17: item `a1` is open with an autosave timer pending, and another
session's unlock notification for `a1` arrives. -/
theorem C17_unlock_notification_witness :
    getProp? (AuthoringDirective.onItemUnlock ⟨"u1", "s1"⟩
        ⟨[("_id", str "a1")],
          [("_id", str "a1"), ("lock_user", str "u1"), ("lock_session", str "s1")],
          true, bool true, false⟩
        (AutosaveService.saveAutosave AutosaveState.start 0
          [("_id", str "a1"), ("lock_user", str "u1"), ("lock_session", str "s1")])
        ⟨str "a1", str "u2", str "s2"⟩).1.item "lock_user" = some null
      ∧ pendingFor (timerKey [("_id", str "a1"), ("lock_user", str "u1"),
            ("lock_session", str "s1")])
          (AuthoringDirective.onItemUnlock ⟨"u1", "s1"⟩
            ⟨[("_id", str "a1")],
              [("_id", str "a1"), ("lock_user", str "u1"), ("lock_session", str "s1")],
              true, bool true, false⟩
            (AutosaveService.saveAutosave AutosaveState.start 0
              [("_id", str "a1"), ("lock_user", str "u1"), ("lock_session", str "s1")])
            ⟨str "a1", str "u2", str "s2"⟩).2.1 = [] :=
  ⟨((C17_unlock_notification ⟨"u1", "s1"⟩
      ⟨[("_id", str "a1")],
        [("_id", str "a1"), ("lock_user", str "u1"), ("lock_session", str "s1")],
        true, bool true, false⟩
      (AutosaveService.saveAutosave AutosaveState.start 0
        [("_id", str "a1"), ("lock_user", str "u1"), ("lock_session", str "s1")])
      ⟨str "a1", str "u2", str "s2"⟩).1
      ⟨by rfl, by rfl, by simp⟩).1,
   ((C17_unlock_notification ⟨"u1", "s1"⟩
      ⟨[("_id", str "a1")],
        [("_id", str "a1"), ("lock_user", str "u1"), ("lock_session", str "s1")],
        true, bool true, false⟩
      (AutosaveService.saveAutosave AutosaveState.start 0
        [("_id", str "a1"), ("lock_user", str "u1"), ("lock_session", str "s1")])
      ⟨str "a1", str "u2", str "s2"⟩).1
      ⟨by rfl, by rfl, by simp⟩).2.2.2.2.2.2
      (consistent_saveAutosave AutosaveState.start 0 _ consistent_start)⟩

/-- C18: `isLockedByMe(item)` is truthy exactly when the item has a lock holder whose
user id is the current user id; `lock_session` plays no part, and the holder may be stored
as a bare id or as an embedded user object with that `_id`. `can_unlock(item)` is `true`
when `isLockedByMe(item)` holds and is the `unlock` privilege flag otherwise. -/
theorem C18_isLockedByMe_and_can_unlock (session : Session) (item : Item)
    (unlockPrivilege : JsVal) :
    ((LockService.isLockedByMe session item).truthy = true ↔
        (readProp item "lock_user").truthy = true
          ∧ LockService.getLockedUserId item = str session.identityId)
      ∧ (session.identityId ≠ "" → readProp item "lock_user" = str session.identityId →
          (LockService.isLockedByMe session item).truthy = true)
      ∧ (∀ props, session.identityId ≠ "" → readProp item "lock_user" = obj props →
          readProp props "_id" = str session.identityId →
          (LockService.isLockedByMe session item).truthy = true)
      ∧ ((LockService.isLockedByMe session item).truthy = true →
          LockService.can_unlock session unlockPrivilege item = bool true)
      ∧ ((LockService.isLockedByMe session item).truthy = false →
          LockService.can_unlock session unlockPrivilege item = unlockPrivilege) := by
  have hiff : (LockService.isLockedByMe session item).truthy = true ↔
      (readProp item "lock_user").truthy = true
        ∧ LockService.getLockedUserId item = str session.identityId := by
    rw [truthy_isLockedByMe, Bool.and_eq_true, strictEqStr_iff]
  refine ⟨hiff, ?_, ?_, ?_, ?_⟩
  · intro hu h
    refine hiff.2 ⟨?_, getLockedUserId_of_bare item _ hu h⟩
    rw [h]
    simp [JsVal.truthy, hu]
  · intro props hu h hid
    refine hiff.2 ⟨?_, getLockedUserId_of_embedded item props _ hu h hid⟩
    rw [h]
    rfl
  · intro h
    unfold LockService.can_unlock
    rw [if_pos h]
  · intro h
    unfold LockService.can_unlock
    rw [h]
    rfl

/-- Witness for C18: the holder is an embedded user object of the current user and the
lock belongs to another session. -/
theorem C18_isLockedByMe_and_can_unlock_witness :
    (LockService.isLockedByMe ⟨"u1", "s1"⟩
        [("lock_user", obj [("_id", str "u1"), ("name", str "ann")]),
         ("lock_session", str "s7")]).truthy = true
      ∧ LockService.can_unlock ⟨"u1", "s1"⟩ (bool false)
          [("lock_user", obj [("_id", str "u1"), ("name", str "ann")]),
           ("lock_session", str "s7")] = bool true :=
  ⟨(C18_isLockedByMe_and_can_unlock ⟨"u1", "s1"⟩
      [("lock_user", obj [("_id", str "u1"), ("name", str "ann")]),
       ("lock_session", str "s7")] (bool false)).2.2.1
      [("_id", str "u1"), ("name", str "ann")] (by decide) (by rfl) (by rfl),
   (C18_isLockedByMe_and_can_unlock ⟨"u1", "s1"⟩
      [("lock_user", obj [("_id", str "u1"), ("name", str "ann")]),
       ("lock_session", str "s7")] (bool false)).2.2.2.1 (by rfl)⟩

/-- C19: `forcedExtend` is idempotent in its first argument: after
`forcedExtend(dest, src)`, a second `forcedExtend(dest, src)` with the same `src` leaves
every key of `dest` as the first application left it, also for the fields whose default
is a truthy empty list or mapping. -/
theorem C19_forcedExtend_idempotent (dest src : Item) (k : String) :
    getProp? (forcedExtend (forcedExtend dest src) src) k
      = getProp? (forcedExtend dest src) k := by
  have h1 := getProp?_forcedExtend dest src k
  have h2 := getProp?_forcedExtend (forcedExtend dest src) src k
  cases hc : getProp? CONTENT_FIELDS_DEFAULTS k with
  | none =>
    rw [hc] at h1 h2
    simp only at h1 h2
    rw [h2]
  | some v =>
    rw [hc] at h1 h2
    simp only at h1 h2
    cases hb : (readProp src k).truthy with
    | true =>
      have hd1 : getProp? (forcedExtend dest src) k = some (readProp src k) := by
        rw [h1]
        simp [hb]
      have hr : readProp (forcedExtend dest src) k = readProp src k := by
        simp [readProp, hd1]
      rw [h2, hr, hd1]
      simp [hb]
    | false =>
      cases ha : (readProp dest k).truthy with
      | true =>
        have hd1 : getProp? (forcedExtend dest src) k = some v := by
          rw [h1]
          simp [ha, hb]
        have hr : readProp (forcedExtend dest src) k = v := by
          simp [readProp, hd1]
        rw [h2, hr, hd1]
        simp [hb]
      | false =>
        have hd1 : getProp? (forcedExtend dest src) k = getProp? dest k := by
          rw [h1]
          simp [ha, hb]
        have hr : readProp (forcedExtend dest src) k = readProp dest k :=
          readProp_eq_of_getProp? _ _ k hd1
        rw [h2, hr, hd1]
        simp [ha, hb]

end Superdesk
